import Mathlib

/-!
Formal verification of the core text-extraction pipeline of the vietnam-me
repository: the Vietnamese number normalizer, the hierarchical section
structure parser, the rule-based KPI target extractor, the HTML appendix
table parser, and the extraction-strategy fallback logic.

Strings are modelled as lists of characters, JavaScript numbers as exact
rationals, and JavaScript `null` / `undefined` as `Option`.  Each definition
is a shallow embedding of the function of the same name in the source.
-/

set_option maxRecDepth 4000

namespace VietnamMe

/-! ## Character helpers -/

/-- ASCII digit test, mirroring the regex class `\d`. -/
def isDigit (c : Char) : Bool := '0' ≤ c && c ≤ '9'

/-- Whitespace, as matched by the regex class `\s` and by `String.prototype.trim`,
restricted to the whitespace characters occurring in these documents. -/
def isWs (c : Char) : Bool := c = ' ' || c = '\t' || c = '\n' || c = '\r'

/-- Trim leading and trailing whitespace (JavaScript `String.prototype.trim`). -/
def jsTrim (l : List Char) : List Char :=
  ((l.dropWhile isWs).reverse.dropWhile isWs).reverse

/-- Numeric value of a decimal digit character. -/
def digitVal (c : Char) : Nat := c.toNat - 48

/-- Value of a string of decimal digits (as read by `parseInt(s, 10)`). -/
def digitsToNat (l : List Char) : Nat := l.foldl (fun a c => 10 * a + digitVal c) 0

/-- All characters are ASCII digits. -/
def allDigits (l : List Char) : Bool := l.all isDigit

/-- Strip one optional leading minus sign, returning (isNegative, rest);
models the `-?` prefix of the number regexes. -/
def splitSign (l : List Char) : Bool × List Char :=
  match l with
  | c :: rest => if c = '-' then (true, rest) else (false, l)
  | [] => (false, l)

/-- `String.prototype.split(sep)` for a one-character separator. -/
def splitOnChar (sep : Char) : List Char → List (List Char)
  | [] => [[]]
  | c :: rest =>
    match splitOnChar sep rest with
    | [] => [[]]
    | h :: t => if c = sep then [] :: h :: t else (c :: h) :: t

/-- `String.prototype.replace(/a/g, '')`: remove every occurrence of a character. -/
def removeAllChar (a : Char) (l : List Char) : List Char := l.filter (fun c => c != a)

/-- `String.prototype.replace(a, b)` for one-character arguments: replace the
first occurrence only. -/
def replaceFirstChar (a b : Char) : List Char → List Char
  | [] => []
  | c :: r => if c = a then b :: r else c :: replaceFirstChar a b r

/-- `String.prototype.replace(a, '')` for a one-character pattern: remove the
first occurrence only. -/
def removeFirstChar (a : Char) : List Char → List Char
  | [] => []
  | c :: r => if c = a then r else c :: removeFirstChar a r

/-! ## NumberNormalizer: parseVietnameseNumber -/

/-- Fractional value of the digit string after a decimal point. -/
def fracValQ (l : List Char) : ℚ := (digitsToNat l : ℚ) / (10 : ℚ) ^ l.length

/-- Models JavaScript `parseFloat` on the well-formed inputs produced by the
normalisation steps of `parseVietnameseNumber`: an optional minus sign,
integer digits, and an optional dot followed by fraction digits. -/
def parseFloatVN (l : List Char) : ℚ :=
  let p := splitSign l
  let ip := p.2.takeWhile isDigit
  let rest := p.2.dropWhile isDigit
  let fr := (rest.drop 1).takeWhile isDigit
  let v : ℚ :=
    if rest.head? = some '.' then (digitsToNat ip : ℚ) + fracValQ fr
    else (digitsToNat ip : ℚ)
  if p.1 then -v else v

/-- Recogniser for the regex `^-?\d+$` (pure integer). -/
def matchesPureInt (l : List Char) : Bool :=
  let p := splitSign l
  !p.2.isEmpty && allDigits p.2

/-- Recogniser for `\d{1,3}(\.\d{3})+`: the integer portion of the Vietnamese
grouped form, split on dots. -/
def groupedIntOk (l : List Char) : Bool :=
  match splitOnChar '.' l with
  | [] => false
  | h :: t =>
    decide ((1 ≤ h.length ∧ h.length ≤ 3) ∧ allDigits h = true ∧ t ≠ [] ∧
      ∀ g ∈ t, g.length = 3 ∧ allDigits g = true)

/-- Recogniser for the regex `^-?\d{1,3}(\.\d{3})+(,\d+)?$` (Vietnamese grouped
form: dot = thousands separator, comma = decimal separator). -/
def matchesGrouped (l : List Char) : Bool :=
  let p := splitSign l
  match splitOnChar ',' p.2 with
  | [ip] => groupedIntOk ip
  | [ip, fr] => groupedIntOk ip && !fr.isEmpty && allDigits fr
  | _ => false

/-- Recogniser for the regex `^-?\d+(,\d+)$` (Vietnamese decimal without
thousands grouping). -/
def matchesDecimalComma (l : List Char) : Bool :=
  let p := splitSign l
  match splitOnChar ',' p.2 with
  | [a, b] => !a.isEmpty && allDigits a && !b.isEmpty && allDigits b
  | _ => false

/-- Recogniser for the regex `^-?\d+\.\d+$` (international-looking float). -/
def matchesIntlFloat (l : List Char) : Bool :=
  let p := splitSign l
  match splitOnChar '.' p.2 with
  | [a, b] => !a.isEmpty && allDigits a && !b.isEmpty && allDigits b
  | _ => false

/-- Core of `parseVietnameseNumber`, over the trimmed character list.  The four
regex cases are tried in source order, first match wins; the `isNaN` guards of
the source are unreachable on the matched shapes, so every matched branch
returns a value. -/
def pvnCore (l : List Char) : Option ℚ :=
  if l.isEmpty then none
  else if matchesPureInt l then
    some (parseFloatVN l)
  else if matchesGrouped l then
    some (parseFloatVN (replaceFirstChar ',' '.' (removeAllChar '.' l)))
  else if matchesDecimalComma l then
    some (parseFloatVN (replaceFirstChar ',' '.' l))
  else if matchesIntlFloat l then
    match splitOnChar '.' l with
    | [p0, p1] =>
      if p1.length = 3 ∧ p0.length ≤ 3 then
        some (parseFloatVN (removeFirstChar '.' l))
      else
        some (parseFloatVN l)
    | _ => none
  else none

/-- Shallow embedding of `parseVietnameseNumber` (scripts/parsing/extract-targets):
parse a Vietnamese-formatted number string, returning `none` for the
not-a-number result (`null`). -/
def parseVietnameseNumber (s : String) : Option ℚ := pvnCore (jsTrim s.data)

/-- The characters contributed by the optional leading minus. -/
def signChars (neg : Bool) : List Char := if neg then ['-'] else []

/-- Apply the sign to a parsed magnitude. -/
def qsign (neg : Bool) (v : ℚ) : ℚ := if neg then -v else v

/-! ## Regex scanning helpers

The extractor's regexes are hand-compiled to deterministic scanners over
character lists.  Positions are indices into the subject list; a matcher at a
position returns the end position of the match (or `none`).  Greedy
quantifiers whose follower sets are disjoint from the quantified class are
compiled to maximal munch; the few places where real backtracking can occur
(optional groups, bounded counters, alternations) enumerate the
possibilities in the regex engine's preference order. -/

/-- Lowercase mapping of `String.prototype.toLowerCase` restricted to ASCII,
Latin-1 letters, and the precomposed Vietnamese letters used in these
documents. -/
def jsToLower (c : Char) : Char :=
  let n := c.toNat
  if 'A' ≤ c ∧ c ≤ 'Z' then Char.ofNat (n + 32)
  else if 0xC0 ≤ n ∧ n ≤ 0xDE ∧ n ≠ 0xD7 then Char.ofNat (n + 32)
  else if n = 0x102 ∨ n = 0x110 ∨ n = 0x1A0 ∨ n = 0x1AF then Char.ofNat (n + 1)
  else if 0x1EA0 ≤ n ∧ n ≤ 0x1EFF ∧ n % 2 = 0 then Char.ofNat (n + 1)
  else c

/-- ASCII word character, the regex class `\w` (JavaScript, no unicode flag). -/
def isWordChar (c : Char) : Bool :=
  ('A' ≤ c && c ≤ 'Z') || ('a' ≤ c && c ≤ 'z') || isDigit c || c = '_'

/-- The slice of `s` from position `i` (inclusive) to `j` (exclusive). -/
def sliceL (s : List Char) (i j : Nat) : List Char := (s.take j).drop i

/-- Character at a position, if in range. -/
def charAt? (s : List Char) (i : Nat) : Option Char := (s.drop i).head?

/-- First position at or after `i` whose character fails `p` (or the end). -/
def advanceWhile (p : Char → Bool) (s : List Char) (i : Nat) : Nat :=
  i + ((s.drop i).takeWhile p).length

/-- Is the character at position `i` an ASCII word character? -/
def isWordAt (s : List Char) (i : Nat) : Bool :=
  match charAt? s i with
  | some c => isWordChar c
  | none => false

/-- The regex word boundary `\b` before position `i`. -/
def boundaryAt (s : List Char) (i : Nat) : Bool :=
  (if i = 0 then false else isWordAt s (i - 1)) != isWordAt s i

/-- Case-insensitively match the literal `w` at position `i` (the `i` flag). -/
def litAtCI (w : List Char) (s : List Char) (i : Nat) : Option Nat :=
  let seg := (s.drop i).take w.length
  if seg.length = w.length ∧
      (w.zip seg).all (fun pq => jsToLower pq.1 == jsToLower pq.2)
  then some (i + w.length) else none

/-- Case-sensitively match the literal `w` at position `i`. -/
def litAtCS (w : List Char) (s : List Char) (i : Nat) : Option Nat :=
  let seg := (s.drop i).take w.length
  if seg.length = w.length ∧ (w.zip seg).all (fun pq => pq.1 == pq.2)
  then some (i + w.length) else none

/-- `\s+` (maximal munch). -/
def wsPlusAt (s : List Char) (i : Nat) : Option Nat :=
  let j := advanceWhile isWs s i
  if j = i then none else some j

/-- Match the given words separated by `\s+`, case-insensitively. -/
def seqCI (ws : List String) (s : List Char) (i : Nat) : Option Nat :=
  match ws with
  | [] => some i
  | [w] => litAtCI w.data s i
  | w :: rest =>
    (litAtCI w.data s i).bind fun j => (wsPlusAt s j).bind fun k => seqCI rest s k

/-- Case-insensitive literal with a word boundary on both sides (`\bw\b`). -/
def litBoundCI (w : List Char) (s : List Char) (i : Nat) : Option Nat :=
  if boundaryAt s i then
    match litAtCI w s i with
    | some j => if boundaryAt s j then some j else none
    | none => none
  else none

/-- Scan left to right for the first position where the matcher succeeds. -/
def scanFirstGo (f : List Char → Nat → Option α) (s : List Char) :
    Nat → Nat → Option (Nat × α)
  | _, 0 => none
  | i, fuel + 1 =>
    if i > s.length then none
    else match f s i with
      | some a => some (i, a)
      | none => scanFirstGo f s (i + 1) fuel

/-- Leftmost match of a matcher over the subject (models `String.match` /
`RegExp.test` for a scanning regex). -/
def scanFirst (f : List Char → Nat → Option α) (s : List Char) : Option (Nat × α) :=
  scanFirstGo f s 0 (s.length + 2)

/-- Substring containment (`String.prototype.includes`). -/
def containsSub (needle hay : List Char) : Bool :=
  (List.range (hay.length + 1)).any (fun i => needle.isPrefixOf (hay.drop i))

/-- Lazy quantifier loop: starting at `k`, repeatedly test the zero-width
lookahead `look`; on failure consume one character of class `cls` and retry.
Models `[cls]*?(?=look)`. -/
def lazyUntilGo (cls : Char → Bool) (look : List Char → Nat → Bool) (s : List Char) :
    Nat → Nat → Option Nat
  | k, 0 => none
  | k, fuel + 1 =>
    if look s k then some k
    else match charAt? s k with
      | some c => if cls c then lazyUntilGo cls look s (k + 1) fuel else none
      | none => none

/-- `[cls]*?(?=look)` starting at `k`. -/
def lazyUntil (cls : Char → Bool) (look : List Char → Nat → Bool)
    (s : List Char) (k : Nat) : Option Nat :=
  lazyUntilGo cls look s k (s.length + 2)

/-- `[cls]+?(?=look)` starting at `k` (at least one character). -/
def lazyUntilOne (cls : Char → Bool) (look : List Char → Nat → Bool)
    (s : List Char) (k : Nat) : Option Nat :=
  match charAt? s k with
  | some c => if cls c then lazyUntilGo cls look s (k + 1) (s.length + 2) else none
  | none => none

/-- Split a string on the matches of a delimiter matcher (`String.split` with
a regex whose matches are non-empty and contain no capture groups). -/
def splitByDelimGo (dm : List Char → Nat → Option Nat) (s : List Char) :
    Nat → Nat → Nat → List (List Char)
  | st, _, 0 => [sliceL s st s.length]
  | st, i, fuel + 1 =>
    if i < s.length then
      match dm s i with
      | some j =>
        if j > i then sliceL s st i :: splitByDelimGo dm s j j fuel
        else splitByDelimGo dm s st (i + 1) fuel
      | none => splitByDelimGo dm s st (i + 1) fuel
    else [sliceL s st s.length]

/-- Split on a delimiter matcher. -/
def splitByDelim (dm : List Char → Nat → Option Nat) (s : List Char) : List (List Char) :=
  splitByDelimGo dm s 0 0 (s.length + 2)

/-! ## Vietnamese character classes -/

/-- The lowercase precomposed Vietnamese vowels listed in the extractor's
character classes. -/
def vnLowerLetters : List Char :=
  "àáảãạăắằẳẵặâấầẩẫậèéẻẽẹêếềểễệìíỉĩịòóỏõọôốồổỗộơớờởỡợùúủũụưứừửữựỳýỷỹỵ".data

/-- The uppercase Vietnamese letters of the sentence-splitting class
`[A-ZĐÀ...Ỵ]` (case-sensitive). -/
def upperVNLetters : List Char :=
  "ĐÀÁẢÃẠĂẮẰẲẴẶÂẤẦẨẪẬÈÉẺẼẸÊẾỀỂỄỆÌÍỈĨỊÒÓỎÕỌÔỐỒỔỖỘƠỚỜỞỠỢÙÚỦŨỤƯỨỪỬỮỰỲÝỶỸỴ".data

/-- Uppercase letter for the sentence boundary split (`[A-ZĐÀ...Ỵ]`). -/
def isUpperSplit (c : Char) : Bool :=
  ('A' ≤ c && c ≤ 'Z') || upperVNLetters.contains c

/-- A Vietnamese or ASCII letter, under the `i` flag (used for the leading
character of KPI-name capture groups). -/
def letterClassVN (c : Char) : Bool :=
  ('a' ≤ jsToLower c && jsToLower c ≤ 'z') || vnLowerLetters.contains (jsToLower c) ||
    jsToLower c = 'đ'

/-- The class `[\wàá...đĐ\s-]` under the `i` flag. -/
def nameClassA (c : Char) : Bool :=
  isWordChar c || isWs c || c = '-' || vnLowerLetters.contains (jsToLower c) ||
    jsToLower c = 'đ'

/-- The class `[\wàá...đĐ\s,()-]` under the `i` flag. -/
def nameClassB (c : Char) : Bool :=
  nameClassA c || c = ',' || c = '(' || c = ')'

/-- The class `[\wàá...đĐ\s]` (letters and whitespace only), under `i`. -/
def veBodyClass (c : Char) : Bool :=
  isWordChar c || isWs c || vnLowerLetters.contains (jsToLower c) || jsToLower c = 'đ'

/-! ## Unit detection (UNIT_PATTERNS, detectUnit, normalizeUnit) -/

/-- Test `\bw\b` case-insensitively anywhere in the subject. -/
def reTestCIB (w : String) (s : List Char) : Bool :=
  (scanFirst (fun s i => litBoundCI w.data s i) s).isSome

/-- Test a case-insensitive literal anywhere in the subject (no boundaries). -/
def reTestCI (w : String) (s : List Char) : Bool :=
  (scanFirst (fun s i => litAtCI w.data s i) s).isSome

/-- Test a case-insensitive literal with a trailing word boundary only
(the pattern `%\/năm\b`). -/
def reTestCIEndB (w : String) (s : List Char) : Bool :=
  (scanFirst (fun s i =>
    (litAtCI w.data s i).bind fun j => if boundaryAt s j then some j else none) s).isSome

/-- Test `\bw\b` case-sensitively (the `MW` and `GW` patterns carry no `i`
flag). -/
def reTestCSB (w : String) (s : List Char) : Bool :=
  (scanFirst (fun s i =>
    if boundaryAt s i then
      match litAtCS w.data s i with
      | some j => if boundaryAt s j then some j else none
      | none => none
    else none) s).isSome

/-- Known unit patterns and their canonical forms, in source order. -/
def UNIT_PATTERNS : List ((List Char → Bool) × String) :=
  [ (reTestCIEndB "%/năm", "%/năm"),
    (reTestCI "%", "%"),
    (reTestCIB "USD", "USD"),
    (reTestCIB "triệu USD", "triệu USD"),
    (reTestCIB "tỷ USD", "tỷ USD"),
    (reTestCIB "nghìn tỷ đồng", "nghìn tỷ đồng"),
    (reTestCIB "tỷ đồng", "tỷ đồng"),
    (reTestCIB "triệu đồng", "triệu đồng"),
    (reTestCIB "nghìn ha", "nghìn ha"),
    (reTestCIB "triệu ha", "triệu ha"),
    (reTestCIB "ha", "ha"),
    (reTestCIB "km", "km"),
    (reTestCSB "MW", "MW"),
    (reTestCSB "GW", "GW"),
    (reTestCIB "giường bệnh", "giường bệnh"),
    (reTestCIB "bác sĩ", "bác sĩ"),
    (reTestCIB "người", "người"),
    (reTestCIB "lao động", "lao động"),
    (reTestCIB "triệu người", "triệu người"),
    (reTestCIB "triệu lượt", "triệu lượt"),
    (reTestCIB "nghìn người", "nghìn người"),
    (reTestCIB "dân số", "dân số") ]

/-- Detect the unit from a text fragment: first matching pattern wins. -/
def detectUnit (text : List Char) : Option String :=
  UNIT_PATTERNS.findSome? (fun pu => if pu.1 text then some pu.2 else none)

/-- Normalize a unit hint string into a canonical unit name
(`normalizeUnit` in the source). -/
def normalizeUnit (hint : List Char) : Option String :=
  let s := (jsTrim hint).map jsToLower
  if s = "%".data ∨ s = "%/năm".data then some (String.mk s)
  else if containsSub "usd".data s then some "USD"
  else if containsSub "km".data s then some "km"
  else if containsSub "ha".data s then some "ha"
  else if containsSub "mw".data s then some "MW"
  else if containsSub "gw".data s then some "GW"
  else if containsSub "nghìn".data s then some (String.mk s)
  else if containsSub "triệu".data s then some (String.mk s)
  else if containsSub "tỷ".data s then some (String.mk s)
  else if jsTrim hint = [] then none
  else some (String.mk (jsTrim hint))

/-! ## Year and period extraction -/

/-- Match `\d{4}` at a position, returning its numeric value. -/
def yearDigits4 (s : List Char) (i : Nat) : Option (Nat × Nat) :=
  let seg := sliceL s i (i + 4)
  if seg.length = 4 ∧ allDigits seg = true then some (i + 4, digitsToNat seg) else none

/-- Match `[-–]` at a position. -/
def dashAt (s : List Char) (i : Nat) : Option Nat :=
  match charAt? s i with
  | some c => if c = '-' ∨ c = '–' then some (i + 1) else none
  | none => none

/-- Matcher for `giai\s+đoạn\s+(\d{4})\s*[-–]\s*(\d{4})`. -/
def giaiDoanAt (s : List Char) (i : Nat) : Option (Nat × Nat) :=
  (seqCI ["giai", "đoạn"] s i).bind fun j =>
  (wsPlusAt s j).bind fun k =>
  (yearDigits4 s k).bind fun e1y =>
  (dashAt s (advanceWhile isWs s e1y.1)).bind fun d2 =>
  (yearDigits4 s (advanceWhile isWs s d2)).map fun e2y => (e1y.2, e2y.2)

/-- Matcher for the standalone year `\b(20\d{2})\b`. -/
def standaloneYearAt (s : List Char) (i : Nat) : Option Nat :=
  if boundaryAt s i ∧ charAt? s i = some '2' ∧ charAt? s (i + 1) = some '0' ∧
      (charAt? s (i + 2)).any isDigit ∧ (charAt? s (i + 3)).any isDigit ∧
      boundaryAt s (i + 4)
  then some (digitsToNat (sliceL s i (i + 4))) else none

/-- Extract the target year from text: `đến năm YYYY`, then `năm YYYY`, then
`giai đoạn YYYY - YYYY` (end year), then a standalone year `20YY`. -/
def extractYear (s : List Char) : Option Nat :=
  match scanFirst (fun s i =>
      (seqCI ["đến", "năm"] s i).bind fun j =>
      (wsPlusAt s j).bind fun k => yearDigits4 s k) s with
  | some iy => some iy.2.2
  | none =>
    match scanFirst (fun s i =>
        (litAtCI "năm".data s i).bind fun j =>
        (wsPlusAt s j).bind fun k => yearDigits4 s k) s with
    | some iy => some iy.2.2
    | none =>
      match scanFirst giaiDoanAt s with
      | some iy => some iy.2.2
      | none =>
        match scanFirst standaloneYearAt s with
        | some iy => some iy.2
        | none => none

/-- Extract period information (start year, end year) if present. -/
def extractPeriod (s : List Char) : Option Nat × Option Nat :=
  match scanFirst giaiDoanAt s with
  | some iy => (some iy.2.1, some iy.2.2)
  | none => (none, none)

/-! ## Target data model -/

/-- The target type enumeration of the extractor. -/
inductive TargetType where
  | QUANTITATIVE
  | QUALITATIVE
  | MILESTONE
deriving DecidableEq, Repr

/-- The metadata keys the rule-based extractor writes (`comparison` and
`period`), modelled as a structure. -/
structure TargetMetadata where
  comparison : Option String := none
  period : Option (Option Nat × Option Nat) := none
deriving DecidableEq, Repr

/-- The `ExtractedTarget` record, with JavaScript numbers as rationals and
absent optional fields as `none`. -/
structure ExtractedTarget where
  targetType : TargetType
  nameVi : String
  nameEn : Option String := none
  unit : Option String := none
  targetValue : Option ℚ := none
  targetYear : Option Nat := none
  targetMin : Option ℚ := none
  targetMax : Option ℚ := none
  baselineValue : Option ℚ := none
  baselineYear : Option Nat := none
  rawTextVi : String
  metadata : Option TargetMetadata := none
deriving DecidableEq, Repr

/-- Comparison semantics carried by each KPI pattern. -/
inductive Comparison where
  | exact
  | above
  | below
  | range
  | approximately
deriving DecidableEq, Repr

/-- Parse a number that may appear inline in text (`parseInlineNumber`):
extract the leading numeric token `-?\d[\d.,]*` and feed it to
`parseVietnameseNumber`. -/
def parseInlineNumber (raw : List Char) : Option ℚ :=
  let s := jsTrim raw
  let p := splitSign s
  match p.2 with
  | c :: _ =>
    if isDigit c then
      pvnCore (jsTrim ((if p.1 then ['-'] else []) ++
        p.2.takeWhile (fun c => isDigit c || c = '.' || c = ',')))
    else none
  | [] => none

/-! ## KPI numeric patterns (KPI_REGEX_PATTERNS, findKpiMatches) -/

/-- Raw result of matching one KPI pattern at one position. -/
structure RawKpi where
  endPos : Nat
  valueStr : List Char
  valueStr2 : Option (List Char) := none
  unitCap : Option (List Char) := none

/-- The class `[\d.,]`. -/
def numClass (c : Char) : Bool := isDigit c || c = '.' || c = ','

/-- Match the numeric token `\d[\d.,]*` at a position. -/
def numTokAt (s : List Char) (i : Nat) : Option (Nat × List Char) :=
  match charAt? s i with
  | some c =>
    if isDigit c then
      let e := advanceWhile numClass s (i + 1)
      some (e, sliceL s i e)
    else none
  | none => none

/-- The alternative `%(?:\/năm)?` (greedy on the optional suffix). -/
def uPercent (s : List Char) (i : Nat) : Option Nat :=
  if charAt? s i = some '%' then
    match litAtCI "/năm".data s (i + 1) with
    | some j => some j
    | none => some (i + 1)
  else none

/-- A `\bw\b` unit alternative (case-insensitive). -/
def uWordB (w : String) (s : List Char) (i : Nat) : Option Nat := litBoundCI w.data s i

/-- A bare case-insensitive literal unit alternative (no boundaries). -/
def uLit (w : String) (s : List Char) (i : Nat) : Option Nat := litAtCI w.data s i

/-- A multi-word unit alternative with `\s+` separators (no boundaries). -/
def uSeq (ws : List String) (s : List Char) (i : Nat) : Option Nat := seqCI ws s i

/-- Unit alternation of the range pattern:
`%(?:\/năm)?|\bUSD\b|\bkm\b|\bha\b|\bMW\b|\bGW\b`. -/
def altsRange : List (List Char → Nat → Option Nat) :=
  [uPercent, uWordB "USD", uWordB "km", uWordB "ha", uWordB "MW", uWordB "GW"]

/-- `%(?:\/năm)?|\bUSD\b|\btriệu\b|\btỷ\b|\bnghìn\b|\bkm\b|\bha\b|\bMW\b`. -/
def altsBig : List (List Char → Nat → Option Nat) :=
  [uPercent, uWordB "USD", uWordB "triệu", uWordB "tỷ", uWordB "nghìn",
    uWordB "km", uWordB "ha", uWordB "MW"]

/-- `%(?:\/năm)?|\bUSD\b|\btriệu\b|\btỷ\b|\bnghìn\b|\bkm\b|\bha\b` (no MW). -/
def altsNoMW : List (List Char → Nat → Option Nat) :=
  [uPercent, uWordB "USD", uWordB "triệu", uWordB "tỷ", uWordB "nghìn",
    uWordB "km", uWordB "ha"]

/-- `%(?:\/năm)?|\bUSD\b|\btriệu\b|\btỷ\b|\bnghìn\b`. -/
def altsShort : List (List Char → Nat → Option Nat) :=
  [uPercent, uWordB "USD", uWordB "triệu", uWordB "tỷ", uWordB "nghìn"]

/-- `km|ha|%|MW|GW|giường\s+bệnh` (the `có` pattern, no boundaries). -/
def altsCo : List (List Char → Nat → Option Nat) :=
  [uLit "km", uLit "ha", uLit "%", uLit "MW", uLit "GW", uSeq ["giường", "bệnh"]]

/-- The large-number unit alternation of the standalone pattern. -/
def altsStandalone : List (List Char → Nat → Option Nat) :=
  [uSeq ["triệu", "USD"], uSeq ["tỷ", "USD"], uSeq ["tỷ", "đồng"],
    uSeq ["nghìn", "tỷ", "đồng"], uSeq ["triệu", "đồng"], uSeq ["nghìn", "ha"],
    uSeq ["triệu", "ha"], uSeq ["nghìn", "người"], uSeq ["triệu", "người"],
    uSeq ["triệu", "lượt"]]

/-- `\s*(alternation)` with a mandatory unit group: maximal whitespace, then
the first matching alternative; the capture is the matched unit text. -/
def mandUnitTail (alts : List (List Char → Nat → Option Nat)) (s : List Char)
    (vEnd : Nat) : Option (Nat × List Char) :=
  let w := advanceWhile isWs s vEnd
  (alts.findSome? (fun f => f s w)).map (fun uEnd => (uEnd, sliceL s w uEnd))

/-- `\s*(alternation)?` with an optional unit group: when no alternative
matches, the match ends after the whitespace and the capture is absent. -/
def optUnitTail (alts : List (List Char → Nat → Option Nat)) (s : List Char)
    (vEnd : Nat) : Nat × Option (List Char) :=
  let w := advanceWhile isWs s vEnd
  match alts.findSome? (fun f => f s w) with
  | some uEnd => (uEnd, some (sliceL s w uEnd))
  | none => (w, none)

/-- `KEYWORDS\s+(\d[\d.,]*)`: keyword sequence, whitespace, numeric token. -/
def kwNum (ws : List String) (s : List Char) (i : Nat) : Option (Nat × List Char) :=
  (seqCI ws s i).bind fun j => (wsPlusAt s j).bind fun k => numTokAt s k

/-- Keyword pattern with a mandatory unit group. -/
def kwMand (ws : List String) (alts : List (List Char → Nat → Option Nat))
    (s : List Char) (i : Nat) : Option RawKpi :=
  (kwNum ws s i).bind fun ev =>
  (mandUnitTail alts s ev.1).map fun eu =>
    { endPos := eu.1, valueStr := ev.2, unitCap := some eu.2 }

/-- Keyword pattern with an optional unit group. -/
def kwOpt (ws : List String) (alts : List (List Char → Nat → Option Nat))
    (s : List Char) (i : Nat) : Option RawKpi :=
  (kwNum ws s i).map fun ev =>
    let eu := optUnitTail alts s ev.1
    { endPos := eu.1, valueStr := ev.2, unitCap := eu.2 }

/-- Pattern 1: `(\d[\d.,]*)\s*[-–]\s*(\d[\d.,]*)\s*(units)` (range). -/
def rangeTryAt (s : List Char) (i : Nat) : Option RawKpi :=
  (numTokAt s i).bind fun ev1 =>
  (dashAt s (advanceWhile isWs s ev1.1)).bind fun d2 =>
  (numTokAt s (advanceWhile isWs s d2)).bind fun ev2 =>
  (mandUnitTail altsRange s ev2.1).map fun eu =>
    { endPos := eu.1, valueStr := ev1.2, valueStr2 := some ev2.2, unitCap := some eu.2 }

/-- Pattern 4: `\btrên\s+(\d[\d.,]*)\s*(%(?:\/năm)?)`. -/
def trenTryAt (s : List Char) (i : Nat) : Option RawKpi :=
  if boundaryAt s i then kwMand ["trên"] [uPercent] s i else none

/-- Pattern 5: `(?:đạt\s+)?dưới\s+(\d[\d.,]*)\s*(units)?` — the optional
prefix is tried greedily first, with backtracking. -/
def duoiTryAt (s : List Char) (i : Nat) : Option RawKpi :=
  match (litAtCI "đạt".data s i).bind (fun j => wsPlusAt s j) with
  | some k => (kwOpt ["dưới"] altsNoMW s k).map (fun r => r) |>.orElse
      (fun _ => kwOpt ["dưới"] altsNoMW s i)
  | none => kwOpt ["dưới"] altsNoMW s i

/-- Pattern 12: `\bcó\s+(\d[\d.,]*)\s*(km|ha|%|MW|GW|giường\s+bệnh)`. -/
def coTryAt (s : List Char) (i : Nat) : Option RawKpi :=
  if boundaryAt s i then kwMand ["có"] altsCo s i else none

/-- Pattern 13: `\b(\d{2,3})\s*%(?!\s*\/)` — a bounded digit counter with a
negative lookahead; the single capture group makes the source pick the whole
match as the unit capture. -/
def barePctTryAt (s : List Char) (i : Nat) : Option RawKpi :=
  if boundaryAt s i then
    let tryDigits : Nat → Option RawKpi := fun d =>
      let seg := sliceL s i (i + d)
      if seg.length = d ∧ allDigits seg = true then
        let w := advanceWhile isWs s (i + d)
        if charAt? s w = some '%' then
          if (charAt? s (advanceWhile isWs s (w + 1))) = some '/' then none
          else some { endPos := w + 1, valueStr := seg,
                      unitCap := some (sliceL s i (w + 1)) }
        else none
      else none
    (tryDigits 3).orElse (fun _ => tryDigits 2)
  else none

/-- Pattern 14: `(\d[\d.,]*)\s*(large-number units)` — one capture group for
the value and one for the unit. -/
def standaloneUnitTryAt (s : List Char) (i : Nat) : Option RawKpi :=
  (numTokAt s i).bind fun ev =>
  (mandUnitTail altsStandalone s ev.1).map fun eu =>
    { endPos := eu.1, valueStr := ev.2, unitCap := some eu.2 }

/-- Pattern 15: `(\d[\d.,]*)\s+USD` — a single capture group, so the source
picks the whole match as the unit capture. -/
def usdTryAt (s : List Char) (i : Nat) : Option RawKpi :=
  (numTokAt s i).bind fun ev =>
  (wsPlusAt s ev.1).bind fun j =>
  (litAtCI "USD".data s j).map fun k =>
    { endPos := k, valueStr := ev.2, unitCap := some (sliceL s i k) }

/-- The ordered KPI pattern table (`KPI_REGEX_PATTERNS`). -/
def KPI_REGEX_PATTERNS : List (Comparison × (List Char → Nat → Option RawKpi)) :=
  [ (.range, rangeTryAt),
    (.approximately, kwMand ["đạt", "khoảng"] altsBig),
    (.above, kwOpt ["đạt", "trên"] altsBig),
    (.above, trenTryAt),
    (.below, duoiTryAt),
    (.exact, kwOpt ["đạt"] altsBig),
    (.approximately, kwMand ["khoảng"] altsShort),
    (.exact, fun s i => ((kwMand ["là"] [uPercent] s i).orElse
      (fun _ => kwMand ["còn"] [uPercent] s i))),
    (.exact, fun s i => ((kwMand ["tăng"] [uPercent] s i).orElse
      (fun _ => kwMand ["giảm"] [uPercent] s i))),
    (.approximately, kwOpt ["ở", "mức"] altsNoMW),
    (.above, kwOpt ["ít", "nhất"] altsBig),
    (.exact, coTryAt),
    (.exact, barePctTryAt),
    (.exact, standaloneUnitTryAt),
    (.exact, usdTryAt) ]

/-- A match produced by `findKpiMatches`. -/
structure KpiMatch where
  valueStr : List Char
  valueStr2 : Option (List Char) := none
  comparison : Comparison
  unitHint : Option (List Char) := none
  matchIndex : Nat
  matchLen : Nat
deriving Repr

/-- The character class `[a-zA-Z%đĐ]` of the unit-hint test. -/
def isUnitHintChar (c : Char) : Bool :=
  ('a' ≤ c && c ≤ 'z') || ('A' ≤ c && c ≤ 'Z') || c = '%' || c = 'đ' || c = 'Đ'

/-- The unit-hint rule of `findKpiMatches`: keep the unit capture (trimmed)
when it is truthy and contains a letter, `%` or `đ`. -/
def unitHintOf (uc : Option (List Char)) : Option (List Char) :=
  match uc with
  | some u => if u ≠ [] ∧ u.any isUnitHintChar then some (jsTrim u) else none
  | none => none

/-- Scan one pattern globally (`g` flag): collect the matches left to right,
resuming after each match end. -/
def scanPatternGo (tf : List Char → Nat → Option RawKpi) (s : List Char) :
    Nat → Nat → List (Nat × RawKpi)
  | _, 0 => []
  | i, fuel + 1 =>
    if i ≥ s.length then []
    else match tf s i with
      | some m => (i, m) :: scanPatternGo tf s (max m.endPos (i + 1)) fuel
      | none => scanPatternGo tf s (i + 1) fuel

/-- All matches of one pattern over the subject. -/
def scanPattern (tf : List Char → Nat → Option RawKpi) (s : List Char) :
    List (Nat × RawKpi) :=
  scanPatternGo tf s 0 (s.length + 1)

/-- Build a `KpiMatch` from a raw pattern match. -/
def mkKpiMatch (c : Comparison) (i : Nat) (m : RawKpi) : KpiMatch :=
  { valueStr := m.valueStr, valueStr2 := m.valueStr2, comparison := c,
    unitHint := unitHintOf m.unitCap, matchIndex := i, matchLen := m.endPos - i }

/-- Stable insertion of a match into a position-sorted list: the new element
goes after every element with a position less than or equal to its own. -/
def insSorted (a : KpiMatch) : List KpiMatch → List KpiMatch
  | [] => [a]
  | b :: t => if b.matchIndex ≤ a.matchIndex then b :: insSorted a t else a :: b :: t

/-- Stable sort by match position (`results.sort((a, b) => a.matchIndex -
b.matchIndex)`; JavaScript's sort is stable). -/
def sortByIndex (l : List KpiMatch) : List KpiMatch :=
  l.foldl (fun acc a => insSorted a acc) []

/-- One step of the match accumulation: discard the match when it overlaps a
span already claimed by a higher-priority match, otherwise claim its span and
keep it. -/
def kpiInnerStep (c : Comparison) (acc : List (Nat × Nat) × List KpiMatch)
    (im : Nat × RawKpi) : List (Nat × Nat) × List KpiMatch :=
  let overlaps := acc.1.any (fun r => im.1 < r.2 && im.2.endPos > r.1)
  if overlaps then acc
  else (acc.1 ++ [(im.1, im.2.endPos)], acc.2 ++ [mkKpiMatch c im.1 im.2])

/-- Process one pattern of the table: scan it globally and accumulate. -/
def kpiOuterStep (s : List Char) (acc : List (Nat × Nat) × List KpiMatch)
    (p : Comparison × (List Char → Nat → Option RawKpi)) :
    List (Nat × Nat) × List KpiMatch :=
  (scanPattern p.2 s).foldl (kpiInnerStep p.1) acc

/-- Find all KPI numeric matches in a sentence: patterns are run in priority
order; a match overlapping a span already claimed by an earlier match is
discarded; the survivors are ordered by position (stable sort). -/
def findKpiMatches (s : List Char) : List KpiMatch :=
  sortByIndex (KPI_REGEX_PATTERNS.foldl (kpiOuterStep s) ([], [])).2

/-! ## KPI name extraction (KPI_NAME_PATTERNS, extractKpiName) -/

/-- The lookahead `(?=\s+đạt)`. -/
def lookDat (s : List Char) (k : Nat) : Bool :=
  match wsPlusAt s k with
  | some m => (litAtCI "đạt".data s m).isSome
  | none => false

/-- The lookahead `(?=\s+(?:bình\s+quân\s+)?đạt)`. -/
def lookBinhQuanDat (s : List Char) (k : Nat) : Bool :=
  match wsPlusAt s k with
  | some m =>
    (seqCI ["bình", "quân", "đạt"] s m).isSome || (litAtCI "đạt".data s m).isSome
  | none => false

/-- Pattern 1: `(?:tốc\s+độ\s+(?:tăng(?:\s+trưởng)?)\s+[cls]+?)(?=look)` with
greedy backtracking on the optional `trưởng`. -/
def nameP1At (s : List Char) (i : Nat) : Option (List Char) :=
  (seqCI ["tốc", "độ", "tăng"] s i).bind fun j3 =>
  let rest := fun (j4 : Nat) =>
    (wsPlusAt s j4).bind fun j5 =>
    (lazyUntilOne nameClassA lookBinhQuanDat s j5).map fun e => sliceL s i e
  match (wsPlusAt s j3).bind (fun k => litAtCI "trưởng".data s k) with
  | some j4 => (rest j4).orElse (fun _ => rest j3)
  | none => rest j3

/-- Pattern 2: `(?:GDP\s+bình\s+quân\s+đầu\s+người[cls]*?)(?=\s+đạt)`. -/
def nameP2At (s : List Char) (i : Nat) : Option (List Char) :=
  (seqCI ["GDP", "bình", "quân", "đầu", "người"] s i).bind fun j =>
  (lazyUntil nameClassA lookDat s j).map fun e => sliceL s i e

/-- Pattern 3: `(?:tỷ\s+trọng[cls]*?)(?=\s+đạt)`. -/
def nameP3At (s : List Char) (i : Nat) : Option (List Char) :=
  (seqCI ["tỷ", "trọng"] s i).bind fun j =>
  (lazyUntil nameClassA lookDat s j).map fun e => sliceL s i e

/-- Pattern 4: `(?:tỷ\s+lệ[cls,()]*?)(?=\s+đạt)`. -/
def nameP4At (s : List Char) (i : Nat) : Option (List Char) :=
  (seqCI ["tỷ", "lệ"] s i).bind fun j =>
  (lazyUntil nameClassB lookDat s j).map fun e => sliceL s i e

/-- Pattern 5: `(?:(?:^|[.;]\s*)([letter][cls,()]*?))(?=\s+đạt)`; the result is
the capture group (the source prefers `match[1]`). -/
def nameP5At (s : List Char) (i : Nat) : Option (List Char) :=
  let core := fun (j : Nat) =>
    match charAt? s j with
    | some c =>
      if letterClassVN c then
        (lazyUntil nameClassB lookDat s (j + 1)).map fun e => sliceL s j e
      else none
    | none => none
  if i = 0 then
    match core 0 with
    | some g => some g
    | none =>
      match charAt? s 0 with
      | some c => if c = '.' ∨ c = ';' then core (advanceWhile isWs s 1) else none
      | none => none
  else
    match charAt? s i with
    | some c => if c = '.' ∨ c = ';' then core (advanceWhile isWs s (i + 1)) else none
    | none => none

/-- Strip a leading bullet `^[-+•]\s*`. -/
def stripBullet (l : List Char) : List Char :=
  match l with
  | c :: rest =>
    if c = '-' ∨ c = '+' ∨ c = '•' then rest.dropWhile isWs else l
  | [] => l

/-- Strip a leading `^(?:Về\s+[\wVN\s]+:\s*)` prefix. -/
def stripVe (l : List Char) : List Char :=
  match litAtCI "Về".data l 0 with
  | some j =>
    match wsPlusAt l j with
    | some k =>
      let e := advanceWhile veBodyClass l k
      if k < e ∧ charAt? l e = some ':' then (l.drop (e + 1)).dropWhile isWs else l
    | none => l
  | none => l

/-- Strip a leading `^\s*phấn\s+đấu\s+` prefix. -/
def stripPhanDauWs (l : List Char) : List Char :=
  let i0 := advanceWhile isWs l 0
  match (seqCI ["phấn", "đấu"] l i0).bind (fun j => wsPlusAt l j) with
  | some k => l.drop k
  | none => l

/-- Strip a leading `^phấn\s+đấu\s+` prefix (no leading whitespace). -/
def stripPhanDau (l : List Char) : List Char :=
  match (seqCI ["phấn", "đấu"] l 0).bind (fun j => wsPlusAt l j) with
  | some k => l.drop k
  | none => l

/-- Strip a leading `^đến\s+năm\s+\d{4},?\s*` prefix. -/
def stripDenNam (l : List Char) : List Char :=
  match (seqCI ["đến", "năm"] l 0).bind (fun j => wsPlusAt l j) with
  | some k =>
    match yearDigits4 l k with
    | some e1y =>
      let e2 := if charAt? l e1y.1 = some ',' then e1y.1 + 1 else e1y.1
      l.drop (advanceWhile isWs l e2)
    | none => l
  | none => l

/-- Strip a leading `^có\s+` prefix. -/
def stripCo (l : List Char) : List Char :=
  match (litAtCI "có".data l 0).bind (fun j => wsPlusAt l j) with
  | some k => l.drop k
  | none => l

/-- The per-pattern cleanup of `extractKpiName`: strip bullet, `Về ...:` and
`phấn đấu` prefixes, then trim. -/
def cleanName (name : List Char) : List Char :=
  jsTrim (stripPhanDauWs (stripVe (stripBullet name)))

/-- Comparison-verb alternatives of the first fallback's lookahead. -/
def fbVerbAlts : List (List String) :=
  [["đạt"], ["khoảng"], ["trên"], ["dưới"], ["là"], ["còn"], ["tăng"], ["giảm"],
    ["ở", "mức"], ["ít", "nhất"], ["ổn", "định"]]

/-- The lookahead `(?=\s+(?:đạt|khoảng|...|ổn\s+định)\s)`. -/
def lookVerbWs (s : List Char) (k : Nat) : Bool :=
  match wsPlusAt s k with
  | some m => fbVerbAlts.any (fun v =>
      match seqCI v s m with
      | some n => (charAt? s n).any isWs
      | none => false)
  | none => false

/-- Try each optional prefix matcher in order, greedily but with
backtracking, then run the continuation. -/
def tryOpts (opts : List (List Char → Nat → Option Nat)) (s : List Char) (k : Nat)
    (cont : Nat → Option (List Char)) : Option (List Char) :=
  match opts with
  | [] => cont k
  | o :: rest =>
    match o s k with
    | some k2 => (tryOpts rest s k2 cont).orElse (fun _ => tryOpts rest s k cont)
    | none => tryOpts rest s k cont

/-- Optional prefixes of the first fallback:
`(?:[-+•]\s*)?(?:Về\s+[cls]+:\s*)?(?:phấn\s+đấu\s+)?(?:đến\s+năm\s+\d{4},?\s*)?(?:có\s+)?`. -/
def fbPrefixOpts : List (List Char → Nat → Option Nat) :=
  [ fun s i =>
      match charAt? s i with
      | some c => if c = '-' ∨ c = '+' ∨ c = '•'
          then some (advanceWhile isWs s (i + 1)) else none
      | none => none,
    fun s i =>
      (litAtCI "Về".data s i).bind fun j =>
      (wsPlusAt s j).bind fun k =>
      let e := advanceWhile veBodyClass s k
      if k < e ∧ charAt? s e = some ':' then some (advanceWhile isWs s (e + 1)) else none,
    fun s i => (seqCI ["phấn", "đấu"] s i).bind fun j => wsPlusAt s j,
    fun s i =>
      (seqCI ["đến", "năm"] s i).bind fun j =>
      (wsPlusAt s j).bind fun k =>
      (yearDigits4 s k).map fun e1y =>
        advanceWhile isWs s (if charAt? s e1y.1 = some ',' then e1y.1 + 1 else e1y.1),
    fun s i => (litAtCI "có".data s i).bind fun j => wsPlusAt s j ]

/-- First fallback of `extractKpiName`: anchored lazy scan over `[^.;]*?`,
optional prefixes, then a lazy capture up to a comparison verb. -/
def beforeKeywordGo (s : List Char) : Nat → Nat → Option (List Char)
  | _, 0 => none
  | k, fuel + 1 =>
    match tryOpts fbPrefixOpts s k
        (fun k2 => (lazyUntilOne nameClassB lookVerbWs s k2).map
          (fun e => sliceL s k2 e)) with
    | some g => some g
    | none =>
      match charAt? s k with
      | some c =>
        if c ≠ '.' ∧ c ≠ ';' then beforeKeywordGo s (k + 1) fuel else none
      | none => none

def beforeKeywordFB (s : List Char) : Option (List Char) :=
  beforeKeywordGo s 0 (s.length + 2)

/-- Verb alternatives of the second fallback. -/
def fbVerbAlts2 : List (List String) :=
  [["đạt"], ["trên"], ["dưới"], ["khoảng"], ["ít", "nhất"], ["ở", "mức"],
    ["có"], ["là"], ["còn"]]

/-- Second fallback: `^(.+?)\s+(?:verbs)\s+\d` — the lazy dot group grows
until a whitespace-verb-whitespace-digit tail matches. -/
def beforeNumberGo (s : List Char) : Nat → Nat → Option (List Char)
  | _, 0 => none
  | k, fuel + 1 =>
    let tail :=
      (wsPlusAt s k).bind fun m =>
      fbVerbAlts2.findSome? fun v =>
        (seqCI v s m).bind fun n =>
        (wsPlusAt s n).bind fun p =>
        if (charAt? s p).any isDigit then some p else none
    match tail with
    | some _ => if 1 ≤ k then some (sliceL s 0 k) else none
    | none =>
      if k < s.length then beforeNumberGo s (k + 1) fuel else none

def beforeNumberFB (s : List Char) : Option (List Char) :=
  beforeNumberGo s 1 (s.length + 2)

/-- The iterative prefix stripping of the second fallback (three rounds of
`phấn đấu` / `đến năm YYYY` / `có` removal with trimming). -/
def iterStrip (l : List Char) : List Char :=
  let once := fun (x : List Char) => jsTrim (stripCo (stripDenNam (stripPhanDau x)))
  once (once (once l))

/-- Unit alternatives of the third fallback (plain literals, no boundaries):
`%(?:\/năm)?|USD|km|ha|MW|GW|triệu|tỷ|nghìn`. -/
def fbUnitAlts : List (List Char → Nat → Option Nat) :=
  [uPercent, uLit "USD", uLit "km", uLit "ha", uLit "MW", uLit "GW",
    uLit "triệu", uLit "tỷ", uLit "nghìn"]

/-- Letter-or-word class of the third fallback's capture group. -/
def afterNumClassHead (c : Char) : Bool :=
  isWordChar c || vnLowerLetters.contains (jsToLower c) || jsToLower c = 'đ'

/-- The class with whitespace of the third fallback's capture group. -/
def afterNumClassTail (c : Char) : Bool := afterNumClassHead c || isWs c

/-- Third fallback:
`(?:đạt|trên|dưới|khoảng|ít\s+nhất|ở\s+mức|có)\s+\d[\d.,]*\s*(?:units)?\s+(grp)`.
The `\s*` run and the optional unit group backtrack. -/
def afterNumberAt (s : List Char) (i : Nat) : Option (List Char) :=
  (([["đạt"], ["trên"], ["dưới"], ["khoảng"], ["ít", "nhất"], ["ở", "mức"],
      ["có"]] : List (List String)).findSome? fun v =>
    (seqCI v s i).bind fun j =>
    (wsPlusAt s j).bind fun k =>
    (numTokAt s k).bind fun ev =>
    let wsMax := advanceWhile isWs s ev.1 - ev.1
    (List.range (wsMax + 1)).findSome? fun d =>
      let t := ev.1 + (wsMax - d)
      let afterUnit : List (Option Nat) :=
        (fbUnitAlts.map (fun f => f s t)).filter Option.isSome ++ [some t]
      afterUnit.findSome? fun ou =>
        ou.bind fun u =>
        (wsPlusAt s u).bind fun p =>
        match charAt? s p with
        | some c =>
          if afterNumClassHead c then
            some (sliceL s p (advanceWhile afterNumClassTail s (p + 1)))
          else none
        | none => none)

def afterNumberFB (s : List Char) : Option (List Char) :=
  (scanFirst afterNumberAt s).map (fun im => im.2)

/-- Remove the leftmost match of `\s+\S*$` (drop the final word and the
whitespace before it). -/
def stripLastWordGo (l : List Char) : Nat → Nat → List Char
  | _, 0 => l
  | p, fuel + 1 =>
    if p < l.length then
      if (charAt? l p).any isWs then
        let q := advanceWhile isWs l p
        if (l.drop q).all (fun c => !isWs c) then l.take p
        else stripLastWordGo l (p + 1) fuel
      else stripLastWordGo l (p + 1) fuel
    else l

def stripLastWord (l : List Char) : List Char :=
  stripLastWordGo l 0 (l.length + 1)

/-- Extract the KPI/indicator name from a sentence (`extractKpiName`):
named patterns first, then the three fallbacks, then truncation. -/
def extractKpiName (sentence : List Char) : List Char :=
  let patResults : List (Option (List Char)) :=
    [ (scanFirst nameP1At sentence).map (fun im => im.2),
      (scanFirst nameP2At sentence).map (fun im => im.2),
      (scanFirst nameP3At sentence).map (fun im => im.2),
      (scanFirst nameP4At sentence).map (fun im => im.2),
      (scanFirst nameP5At sentence).map (fun im => im.2) ]
  let fromPatterns := patResults.findSome? fun r =>
    match r with
    | some name =>
      let cleaned := cleanName (jsTrim name)
      if 3 < cleaned.length then some cleaned else none
    | none => none
  match fromPatterns with
  | some n => n
  | none =>
    match beforeKeywordFB sentence with
    | some g =>
      if 3 < (jsTrim g).length then jsTrim g
      else fallbackTail sentence
    | none => fallbackTail sentence
where
  /-- The second and third fallbacks and the last-resort truncation. -/
  fallbackTail (sentence : List Char) : List Char :=
    let second :=
      match beforeNumberFB sentence with
      | some g =>
        let cleaned := iterStrip (jsTrim (stripVe (stripBullet g)))
        if 3 < cleaned.length then some cleaned else none
      | none => none
    match second with
    | some n => n
    | none =>
      match afterNumberFB sentence with
      | some g =>
        if 3 < (jsTrim g).length then jsTrim g
        else lastResort sentence
      | none => lastResort sentence
  /-- `sentence.substring(0, 80).replace(/\s+\S*$/, '').trim() || substring(0, 60)`. -/
  lastResort (sentence : List Char) : List Char :=
    let truncated := jsTrim (stripLastWord (sentence.take 80))
    if truncated ≠ [] then truncated else sentence.take 60

/-! ## Sentence and sub-clause splitting -/

/-- Delimiter of the sentence splitter:
`(?<=\.)\s+(?=[A-ZĐ...Ỵ])|;\s*` (case-sensitive). -/
def sentDelimAt (s : List Char) (i : Nat) : Option Nat :=
  let alt1 :=
    if 1 ≤ i ∧ charAt? s (i - 1) = some '.' ∧ (charAt? s i).any isWs then
      let j := advanceWhile isWs s i
      if (charAt? s j).any isUpperSplit then some j else none
    else none
  match alt1 with
  | some j => some j
  | none =>
    if charAt? s i = some ';' then some (advanceWhile isWs s (i + 1)) else none

/-- Split text into sentences (`splitSentences`): newline-split first, then
split each trimmed line on sentence boundaries and semicolons, discarding
empty fragments. -/
def splitSentences (text : List Char) : List (List Char) :=
  (splitOnChar '\n' text).flatMap fun line =>
    let trimmed := jsTrim line
    if trimmed.isEmpty then []
    else (splitByDelim sentDelimAt trimmed).filterMap fun part =>
      let p := jsTrim part
      if p.length > 0 then some p else none

/-- Subject alternatives of the sub-clause split lookahead. -/
def subjAlts : List (List String) :=
  [["khu", "vực"], ["tỷ", "lệ"], ["tỷ", "trọng"], ["tỷ", "số"], ["tốc", "độ"],
    ["số", "lượng"], ["diện", "tích"], ["chiều", "dài"], ["mức"], ["GDP"], ["HDI"]]

/-- Verb alternatives of the sub-clause split lookahead. -/
def subjVerbAlts : List (List String) :=
  [["đạt"], ["trên"], ["dưới"], ["khoảng"], ["ít", "nhất"], ["ở", "mức"],
    ["có"], ["là"], ["còn"]]

/-- The tail of the sub-clause lookahead: `\s+(?:verbs)\s`. -/
def lookSubjVerb (s : List Char) (k : Nat) : Bool :=
  match wsPlusAt s k with
  | some m => subjVerbAlts.any (fun v =>
      match seqCI v s m with
      | some n => (charAt? s n).any isWs
      | none => false)
  | none => false

/-- Delimiter of the sub-clause splitter:
`,\s+(?=(?:subjects)[cls]*?\s+(?:verbs)\s)` (case-insensitive). -/
def subClauseDelimAt (s : List Char) (i : Nat) : Option Nat :=
  if charAt? s i = some ',' then
    match wsPlusAt s (i + 1) with
    | some j =>
      let ok := subjAlts.any fun subj =>
        match seqCI subj s j with
        | some k0 => (lazyUntil nameClassB lookSubjVerb s k0).isSome
        | none => false
      if ok then some j else none
    | none => none
  else none

/-- Split a sentence into sub-clauses (`splitSubClauses`). -/
def splitSubClauses (sentence : List Char) : List (List Char) :=
  let parts := splitByDelim subClauseDelimAt sentence
  if parts.length ≤ 1 then [sentence]
  else (parts.map jsTrim).filter (fun p => p.length > 0)

/-! ## Rule-based extraction (extractTargetsRuleBased) -/

/-- JavaScript `a || b` on optional numbers (`0` and `undefined` are falsy). -/
def jsOrNat (a b : Option Nat) : Option Nat :=
  match a with
  | some n => if n = 0 then b else some n
  | none => b

/-- Truthiness of an optional number. -/
def natTruthy (a : Option Nat) : Bool := a.getD 0 != 0

/-- Assign values based on the comparison type (the `switch` of
`extractTargetsRuleBased`). -/
def applyComparison (comp : Comparison) (v1 v2 : Option ℚ)
    (t : ExtractedTarget) : ExtractedTarget :=
  match comp with
  | .range =>
    let t := { t with targetMin := v1, targetMax := v2 }
    match v1, v2 with
    | some a, some b => { t with targetValue := some ((a + b) / 2) }
    | _, _ => t
  | .above =>
    { t with
      targetMin := v1
      targetValue := v1
      metadata := some { (t.metadata.getD {}) with comparison := some "above" } }
  | .below =>
    { t with
      targetMax := v1
      targetValue := v1
      metadata := some { (t.metadata.getD {}) with comparison := some "below" } }
  | .approximately =>
    { t with
      targetValue := v1
      metadata := some { (t.metadata.getD {}) with comparison := some "approximately" } }
  | .exact => { t with targetValue := v1 }

/-- The year and period assignments that follow the comparison switch
(`if (year) ...` and the period-metadata attachment). -/
def attachYearPeriod (year : Option Nat) (period : Option Nat × Option Nat)
    (t : ExtractedTarget) : ExtractedTarget :=
  let t2 := if natTruthy year then { t with targetYear := year } else t
  if natTruthy period.1 || natTruthy period.2 then
    { t2 with
      metadata := some { (t2.metadata.getD {}) with period := some period } }
  else t2

/-- Build one target from a pattern match, or discard it when no numeral
parses (the `continue` guard of the source loop). -/
def buildTarget (sentence clause : List Char) (m : KpiMatch) : Option ExtractedTarget :=
  let value1 := parseInlineNumber m.valueStr
  let value2 := match m.valueStr2 with
    | some v => parseInlineNumber v
    | none => none
  if value1 = none ∧ value2 = none then none
  else
    let unit : Option String :=
      match detectUnit clause with
      | some u => some u
      | none =>
        match m.unitHint with
        | some h => normalizeUnit h
        | none => none
    let year := jsOrNat (extractYear clause) (extractYear sentence)
    let pc := extractPeriod clause
    let period :=
      if pc.1.getD 0 = 0 ∧ pc.2.getD 0 = 0 then
        let ps := extractPeriod sentence
        ((if ps.1.getD 0 ≠ 0 then ps.1 else pc.1),
         (if ps.2.getD 0 ≠ 0 then ps.2 else pc.2))
      else pc
    let nameVi := extractKpiName clause
    let base : ExtractedTarget :=
      { targetType := .QUANTITATIVE, nameVi := String.mk nameVi, unit := unit,
        rawTextVi := String.mk (jsTrim clause) }
    some (attachYearPeriod year period (applyComparison m.comparison value1 value2 base))

/-- The accumulated target list of `extractTargetsRuleBased`, before
deduplication (the nested sentence/clause/match loops). -/
def rawTargetsRuleBased (contentVi : List Char) : List ExtractedTarget :=
  (splitSentences contentVi).flatMap fun sentence =>
    (splitSubClauses sentence).flatMap fun clause =>
      (findKpiMatches clause).filterMap fun m => buildTarget sentence clause m

/-- String form of an optional number in the dedup key (`${v ?? ''}`); the
canonical printing of rationals stands in for JavaScript float printing —
both are injective, which is all the key relies on. -/
def optQStr : Option ℚ → String
  | none => ""
  | some q => toString q

/-- The dedup key template
`${nameVi}|${targetValue ?? ''}|${unit ?? ''}|${targetMin ?? ''}|${targetMax ?? ''}`. -/
def dedupKey (t : ExtractedTarget) : String :=
  t.nameVi ++ "|" ++ optQStr t.targetValue ++ "|" ++ t.unit.getD "" ++ "|" ++
    optQStr t.targetMin ++ "|" ++ optQStr t.targetMax

/-- The tuple the spec says the dedup key represents. -/
def dedupTuple (t : ExtractedTarget) :
    String × Option ℚ × Option String × Option ℚ × Option ℚ :=
  (t.nameVi, t.targetValue, t.unit, t.targetMin, t.targetMax)

/-- Remove duplicate targets, keeping the first occurrence of each key
(`deduplicateTargets`: a seen-set over the key strings). -/
def dedupGo (seen : List String) : List ExtractedTarget → List ExtractedTarget
  | [] => []
  | t :: ts =>
    if dedupKey t ∈ seen then dedupGo seen ts
    else t :: dedupGo (dedupKey t :: seen) ts

def deduplicateTargets (targets : List ExtractedTarget) : List ExtractedTarget :=
  dedupGo [] targets

/-- Extract KPI targets from Vietnamese text using the regex rules
(`extractTargetsRuleBased`). -/
def extractTargetsRuleBased (contentVi : String) : List ExtractedTarget :=
  deduplicateTargets (rawTargetsRuleBased contentVi.data)

/-! ## Strategy selection (extractTargets) and the LLM fallback -/

/-- Options of `extractTargets`. -/
structure ExtractTargetsOptions where
  useLLM : Option Bool := none
  apiKey : Option String := none

/-- Outcome of the externally-effectful part of `extractTargetsWithLLM`
(the fetch of the Claude API and the parsing of its response), supplied as
an oracle.  Each failure constructor corresponds to one `throw` site of the
source. -/
inductive LlmCallResult where
  | ok (targets : List ExtractedTarget)
  | networkError (msg : String)
  | httpError (status : Nat) (body : String)
  | noTextContent
  | jsonParseError (snippet : String)
  | notAnArray
deriving DecidableEq, Repr

/-- `extractTargetsWithLLM`: throws (returns `.error`) when no key is
available or when the call/response fails in any way; otherwise returns the
normalised targets. -/
def extractTargetsWithLLM (call : LlmCallResult) (key : Option String) :
    Except String (List ExtractedTarget) :=
  match key with
  | none => .error "No Anthropic API key provided."
  | some _ =>
    match call with
    | .ok ts => .ok ts
    | .networkError msg => .error msg
    | .httpError status body => .error ("Claude API error (" ++ toString status ++ "): " ++ body)
    | .noTextContent => .error "No text content in Claude API response"
    | .jsonParseError snippet =>
      .error ("Failed to parse Claude API response as JSON: " ++ snippet)
    | .notAnArray => .error "Claude API response is not a JSON array"

/-- `extractTargets`: the strategy-selecting entry point.  When `useLLM` is
set and a key resolves, the LLM strategy is tried and any thrown error is
caught and replaced by the rule-based result; with no key the rule-based
path is used directly. -/
def extractTargets (contentVi : String) (options : Option ExtractTargetsOptions)
    (envApiKey : Option String) (call : LlmCallResult) : List ExtractedTarget :=
  let useLLM := (options.bind (fun o => o.useLLM)).getD false
  let apiKey := options.bind (fun o => o.apiKey)
  if useLLM then
    match apiKey.orElse (fun _ => envApiKey) with
    | some key =>
      match extractTargetsWithLLM call (some key) with
      | .ok ts => ts
      | .error _ => extractTargetsRuleBased contentVi
    | none => extractTargetsRuleBased contentVi
  else extractTargetsRuleBased contentVi

/-! ## SectionStructureParser (parse-structure) -/

/-- The five structural levels of a Vietnamese legal document. -/
inductive SectionLevel where
  | DIEU
  | ROMAN
  | ARABIC
  | LETTER
  | DASH
deriving DecidableEq, Repr

/-- Numeric priority for each level (lower = higher in the hierarchy). -/
def LEVEL_PRIORITY : SectionLevel → Nat
  | .DIEU => 0
  | .ROMAN => 1
  | .ARABIC => 2
  | .LETTER => 3
  | .DASH => 4

/-- A parsed section node (`ParsedSection` in the source). -/
inductive ParsedSection where
  | mk (level : SectionLevel) (sectionNumber : String) (titleVi : Option String)
      (contentVi : String) (sortOrder : Nat) (children : List ParsedSection)

def ParsedSection.level : ParsedSection → SectionLevel
  | .mk lv _ _ _ _ _ => lv

def ParsedSection.children : ParsedSection → List ParsedSection
  | .mk _ _ _ _ _ cs => cs

/-- A parsed document: preamble, root sections, signature block. -/
structure ParsedDocument where
  preamble : String
  sections : List ParsedSection
  signatureBlock : String

/-- Match `\s+(.+)$` against the remainder of a line: at least one
whitespace character, then a non-empty capture (the greedy `\s+` gives back
one character when the remainder is all whitespace). -/
def wsPlusCapture (rest : List Char) : Option (List Char) :=
  if rest.isEmpty then none
  else
    let t := (rest.takeWhile isWs).length
    let t2 := min t (rest.length - 1)
    if 1 ≤ t2 then some (rest.drop t2) else none

/-- `RE_DIEU = ^Điều\s+(\d+)\.\s*(.+)$`. -/
def dieuMatch (l : List Char) : Option (List Char × List Char) :=
  (litAtCS "Điều".data l 0).bind fun j =>
  (wsPlusAt l j).bind fun k =>
  let e := advanceWhile isDigit l k
  if k < e ∧ charAt? l e = some '.' then
    let rest := l.drop (e + 1)
    if rest.isEmpty then none
    else
      let t := (rest.takeWhile isWs).length
      some (sliceL l k e, rest.drop (min t (rest.length - 1)))
  else none

/-- `RE_ARABIC = ^(\d+)\.\s+(.+)$`. -/
def arabicMatch (l : List Char) : Option (List Char × List Char) :=
  let ds := l.takeWhile isDigit
  if ds.isEmpty then none
  else if charAt? l ds.length = some '.' then
    (wsPlusCapture (l.drop (ds.length + 1))).map (fun g => (ds, g))
  else none

/-- `RE_LETTER = ^([a-zđ])\)\s+(.+)$`. -/
def letterMatch (l : List Char) : Option (List Char × List Char) :=
  match l with
  | c :: ')' :: rest =>
    if ('a' ≤ c && c ≤ 'z') || c = 'đ' then
      (wsPlusCapture rest).map (fun g => ([c], g))
    else none
  | _ => none

/-- A character the roman-numeral group can contain. -/
def isRomanChar (c : Char) : Bool := c = 'X' || c = 'I' || c = 'V'

/-- Whole-string match of the tail alternation `IX|IV|V?I{0,3}`. -/
def romanTailOk (l : List Char) : Bool :=
  l.isEmpty ||
    (["I", "II", "III", "IV", "V", "VI", "VII", "VIII", "IX"].any
      (fun w => l = w.data))

/-- Whole-string match of `X{0,3}(?:IX|IV|V?I{0,3})`. -/
def romanOk (l : List Char) : Bool :=
  let xs := l.takeWhile (fun c => c = 'X')
  xs.length ≤ 3 && romanTailOk (l.drop xs.length)

/-- `RE_ROMAN = ^(X{0,3}(?:IX|IV|V?I{0,3}))\.\s+(.+)$`.  The group must
consist of the full leading run of roman characters (the following `\.`
cannot match a roman character), so the match is deterministic. -/
def romanMatch (l : List Char) : Option (List Char × List Char) :=
  let run := l.takeWhile isRomanChar
  if romanOk run then
    if charAt? l run.length = some '.' then
      (wsPlusCapture (l.drop (run.length + 1))).map (fun g => (run, g))
    else none
  else none

/-- `RE_DASH = ^[-+]\s+(.+)$`. -/
def dashMatch (l : List Char) : Option (List Char) :=
  match l with
  | c :: rest => if c = '-' ∨ c = '+' then wsPlusCapture rest else none
  | [] => none

/-- The result of matching a line against the five section patterns. -/
structure MatchResult where
  level : SectionLevel
  sectionNumber : String
  text : String

/-- `matchLine`: try DIEU, ROMAN (with the non-empty-group guard), ARABIC,
LETTER, DASH in order; first match wins. -/
def matchLine (trimmed : List Char) : Option MatchResult :=
  match dieuMatch trimmed with
  | some nt => some ⟨.DIEU, String.mk nt.1, String.mk nt.2⟩
  | none =>
    let romanR : Option MatchResult :=
      match romanMatch trimmed with
      | some nt =>
        if nt.1.isEmpty then none else some ⟨.ROMAN, String.mk nt.1, String.mk nt.2⟩
      | none => none
    match romanR with
    | some r => some r
    | none =>
      match arabicMatch trimmed with
      | some nt => some ⟨.ARABIC, String.mk nt.1, String.mk nt.2⟩
      | none =>
        match letterMatch trimmed with
        | some nt => some ⟨.LETTER, String.mk nt.1, String.mk nt.2⟩
        | none =>
          match dashMatch trimmed with
          | some t => some ⟨.DASH, "", String.mk t⟩
          | none => none

/-- An open (still accepting children and content) section on the parser
stack. -/
structure Frame where
  level : SectionLevel
  sectionNumber : String
  titleVi : Option String
  contentVi : String
  sortOrder : Nat
  children : List ParsedSection

/-- `createSection`, plus the DASH rule (the matched text is stored as
content, with no title). -/
def createFrame (lv : SectionLevel) (num text : String) (so : Nat) : Frame :=
  { level := lv, sectionNumber := num,
    titleVi := if lv = .DASH then none else some text,
    contentVi := if lv = .DASH then text else "",
    sortOrder := so, children := [] }

/-- Close a frame into an immutable section node. -/
def finalizeFrame (f : Frame) : ParsedSection :=
  .mk f.level f.sectionNumber f.titleVi f.contentVi f.sortOrder f.children

/-- `appendContent`: newline-join new text onto existing content. -/
def appendContent (content text : String) : String :=
  if content.length > 0 then content ++ "\n" ++ text else text

/-- Parser state: closed root sections, the stack of open frames (innermost
first), and the global sortOrder counter. -/
structure PState where
  roots : List ParsedSection
  stack : List Frame
  counter : Nat

/-- `closeUntilParentFor`: pop the stack while its top has priority greater
than or equal to the new level's priority; a popped frame is attached to the
frame below it (or to the roots). -/
def closeUntil (p : Nat) (roots : List ParsedSection) (stack : List Frame) :
    List ParsedSection × List Frame :=
  match stack with
  | [] => (roots, [])
  | f :: rest =>
    if LEVEL_PRIORITY f.level < p then (roots, f :: rest)
    else
      match rest with
      | [] => closeUntil p (roots ++ [finalizeFrame f]) []
      | g :: gs =>
        closeUntil p roots ({ g with children := g.children ++ [finalizeFrame f] } :: gs)
termination_by stack.length
decreasing_by
  all_goals simp
  all_goals omega

/-- Process one line of the body (phase 3 of `parseStructure`). -/
def processLine (st : PState) (line : String) : PState :=
  let trimmed := jsTrim line.data
  if trimmed.isEmpty then st
  else
    match matchLine trimmed with
    | some m =>
      let rs := closeUntil (LEVEL_PRIORITY m.level) st.roots st.stack
      let frame := createFrame m.level m.sectionNumber m.text st.counter
      { roots := rs.1, stack := frame :: rs.2, counter := st.counter + 1 }
    | none =>
      match st.stack with
      | f :: rest =>
        { st with
          stack := { f with
            contentVi := appendContent f.contentVi (String.mk trimmed) } :: rest }
      | [] => st

/-- Uppercase mapping of `String.prototype.toUpperCase` restricted to the
character ranges relevant to the preamble and signature markers. -/
def jsToUpperModel (c : Char) : Char :=
  let n := c.toNat
  if 'a' ≤ c ∧ c ≤ 'z' then Char.ofNat (n - 32)
  else if 0xE0 ≤ n ∧ n ≤ 0xFE ∧ n ≠ 0xF7 then Char.ofNat (n - 32)
  else if n = 0x103 ∨ n = 0x111 ∨ n = 0x1A1 ∨ n = 0x1B0 then Char.ofNat (n - 1)
  else if 0x1EA0 ≤ n ∧ n ≤ 0x1EFF ∧ n % 2 = 1 then Char.ofNat (n - 1)
  else c

/-- Markers that end the preamble. -/
def PREAMBLE_END_MARKERS : List String := ["QUYẾT NGHỊ:", "QUYẾT ĐỊNH:"]

/-- Markers that start the signature block. -/
def SIGNATURE_MARKERS : List String :=
  ["PHỤ LỤC", "CHỦ TỊCH", "TM.", "NƠI NHẬN:", "KT."]

/-- Phase 1: the first line carrying a preamble-end marker (inclusive) or
matching `RE_DIEU` (exclusive). -/
def findPreambleIdx : List String → Nat → Option Nat
  | [], _ => none
  | line :: rest, i =>
    let trimmed := jsTrim line.data
    if PREAMBLE_END_MARKERS.any
        (fun mk => containsSub mk.data (trimmed.map jsToUpperModel)) then some (i + 1)
    else if (dieuMatch trimmed).isSome then some i
    else findPreambleIdx rest (i + 1)

def preambleEndIdx (lines : List String) : Nat := (findPreambleIdx lines 0).getD 0

/-- Phase 2a: the last line at or after `lo` matching `RE_DIEU` (the
backward scan of the source). -/
def lastDieuFrom (lines : List String) (lo : Nat) : Option Nat :=
  ((List.range lines.length).filter (fun i =>
    decide (lo ≤ i) && (dieuMatch (jsTrim ((lines.getD i "").data))).isSome)).getLast?

/-- Phase 2b: the first non-blank line after the last Dieu that starts with
a signature marker; defaults to the number of lines. -/
def signatureStartIdx (lines : List String) (pe : Nat) : Nat :=
  match lastDieuFrom lines pe with
  | none => lines.length
  | some ld =>
    match (List.range lines.length).find? (fun i =>
        decide (ld + 1 ≤ i) &&
        (let upper := (jsTrim ((lines.getD i "").data)).map jsToUpperModel
         !upper.isEmpty && SIGNATURE_MARKERS.any (fun mk => mk.data.isPrefixOf upper))) with
    | some i => i
    | none => lines.length

/-- `parseStructure`: boundary detection, then the stack-driven body parse.
Open frames left at the end of the input are drained (every priority is at
least 0, so `closeUntil 0` pops the whole stack), which attaches each
remaining section exactly where the source attached it at creation time. -/
def parseStructure (text : String) : ParsedDocument :=
  let lines := (splitOnChar '\n' text.data).map String.mk
  let pe := preambleEndIdx lines
  let preamble := String.mk (jsTrim (String.intercalate "\n" (lines.take pe)).data)
  let se := signatureStartIdx lines pe
  let signatureBlock :=
    String.mk (jsTrim (String.intercalate "\n" (lines.drop se)).data)
  let contentLines := (lines.take se).drop pe
  let final := contentLines.foldl processLine { roots := [], stack := [], counter := 0 }
  let drained := closeUntil 0 final.roots final.stack
  { preamble := preamble, sections := drained.1, signatureBlock := signatureBlock }

/-- The spec's stack invariant as a predicate on section trees: every child
is strictly deeper than its parent. -/
inductive GoodTree : ParsedSection → Prop where
  | node : ∀ lv num ti co so cs,
      (∀ c ∈ cs, LEVEL_PRIORITY lv < LEVEL_PRIORITY (ParsedSection.level c)) →
      (∀ c ∈ cs, GoodTree c) →
      GoodTree (ParsedSection.mk lv num ti co so cs)

/-- All trees of a forest satisfy the stack invariant. -/
def GoodSections (l : List ParsedSection) : Prop := ∀ s ∈ l, GoodTree s

/-- An open frame whose accumulated children are all strictly deeper than
the frame itself and are themselves good. -/
def FrameOk (f : Frame) : Prop :=
  ∀ c ∈ f.children, LEVEL_PRIORITY f.level < LEVEL_PRIORITY c.level ∧ GoodTree c

/-- The stack is strictly decreasing in depth from the innermost frame to
the outermost. -/
def StackChain (stack : List Frame) : Prop :=
  List.Chain' (fun a b => LEVEL_PRIORITY b.level < LEVEL_PRIORITY a.level) stack

/-- The parser-state invariant. -/
structure StInv (roots : List ParsedSection) (stack : List Frame) : Prop where
  rootsOk : GoodSections roots
  chain : StackChain stack
  frames : ∀ f ∈ stack, FrameOk f

/-! ## AppendixTableParser: HTML pipeline (extract-text) -/

/-- Appendix classification labels. -/
inductive AppendixType where
  | PROJECT_LIST
  | MAP_LIST
  | INDICATOR_TABLE
  | ROUTE_TABLE
  | FACILITY_LIST
  | MIXED
deriving DecidableEq, Repr

/-- A table cell value: a string, or a number when the cell parses. -/
inductive CellValue where
  | str (s : String)
  | num (q : ℚ)
deriving DecidableEq, Repr

/-- A parsed appendix row; `data` is the ordered key-value record. -/
structure ParsedAppendixRow where
  rowNumber : Nat
  data : List (String × CellValue)
  sortOrder : Nat
deriving DecidableEq, Repr

/-- A parsed appendix. -/
structure ParsedAppendix where
  appendixNumber : Int
  titleVi : String
  appendixType : AppendixType
  columns : List String
  rows : List ParsedAppendixRow
  sortOrder : Nat
deriving DecidableEq, Repr

/-- Columns and rows of one parsed table. -/
structure TextTableResult where
  columns : List String
  rows : List ParsedAppendixRow
deriving Repr

/-- String form of a cell value (`Object.values(...).join`). -/
def cellValueStr : CellValue → String
  | .str s => s
  | .num q => toString q

/-- Scan for the first match at or after a starting position. -/
def scanFirstFrom (f : List Char → Nat → Option α) (s : List Char) (start : Nat) :
    Option (Nat × α) :=
  scanFirstGo f s start (s.length + 2)

/-- All matches of a regex with the `g` flag: repeatedly find the next match
from the previous match's end; each element is (match position, payload). -/
def execAllGo (m : List Char → Nat → Option (Nat × α)) (s : List Char) :
    Nat → Nat → List (Nat × α)
  | _, 0 => []
  | i, fuel + 1 =>
    match scanFirstFrom m s i with
    | some pr => (pr.1, pr.2.2) :: execAllGo m s (max pr.2.1 (pr.1 + 1)) fuel
    | none => []

def execAll (m : List Char → Nat → Option (Nat × α)) (s : List Char) : List (Nat × α) :=
  execAllGo m s 0 (s.length + 2)

/-- `String.prototype.replace` with a `g`-flag regex: replace every match of
the matcher by the replacement. -/
def regexReplaceAllGo (m : List Char → Nat → Option Nat) (repl : List Char)
    (s : List Char) : Nat → Nat → List Char
  | _, 0 => []
  | i, fuel + 1 =>
    if i < s.length then
      match m s i with
      | some j =>
        if i < j then repl ++ regexReplaceAllGo m repl s j fuel
        else (charAt? s i).elim [] (fun c => c :: regexReplaceAllGo m repl s (i + 1) fuel)
      | none =>
        (charAt? s i).elim [] (fun c => c :: regexReplaceAllGo m repl s (i + 1) fuel)
    else []

def regexReplaceAll (m : List Char → Nat → Option Nat) (repl : List Char)
    (s : List Char) : List Char :=
  regexReplaceAllGo m repl s 0 (s.length + 2)

/-- The pattern `<br\s*\/?>` (case-insensitive). -/
def brAt (s : List Char) (i : Nat) : Option Nat :=
  (litAtCI "<br".data s i).bind fun j =>
  let k := advanceWhile isWs s j
  let k2 := if charAt? s k = some '/' then k + 1 else k
  if charAt? s k2 = some '>' then some (k2 + 1) else none

/-- The pattern `<[^>]+>`. -/
def tagAt (s : List Char) (i : Nat) : Option Nat :=
  if charAt? s i = some '<' then
    let e := advanceWhile (fun c => c != '>') s (i + 1)
    if i + 1 < e ∧ charAt? s e = some '>' then some (e + 1) else none
  else none

/-- `stripHtmlTags`: drop `<br>` tags, then all tags, decode the listed HTML
entities, collapse whitespace and trim. -/
def stripHtmlTags (html : List Char) : List Char :=
  let s1 := regexReplaceAll brAt " ".data html
  let s2 := regexReplaceAll tagAt [] s1
  let s3 := regexReplaceAll (fun s i => litAtCI "&nbsp;".data s i) " ".data s2
  let s4 := regexReplaceAll (fun s i => litAtCI "&amp;".data s i) "&".data s3
  let s5 := regexReplaceAll (fun s i => litAtCI "&lt;".data s i) "<".data s4
  let s6 := regexReplaceAll (fun s i => litAtCI "&gt;".data s i) ">".data s5
  let s7 := regexReplaceAll (fun s i => litAtCI "&quot;".data s i) "\"".data s6
  let s8 := regexReplaceAll (fun s i => litAtCI "&#39;".data s i) "\x27".data s7
  let s9 := regexReplaceAll (fun s i => wsPlusAt s i) " ".data s8
  jsTrim s9

/-- The row pattern `<tr[^>]*>([\s\S]*?)<\/tr>`: payload is (end, capture). -/
def trAt (s : List Char) (i : Nat) : Option (Nat × List Char) :=
  (litAtCI "<tr".data s i).bind fun j =>
  let e := advanceWhile (fun c => c != '>') s j
  if charAt? s e = some '>' then
    (scanFirstFrom (fun s k => litAtCI "</tr>".data s k) s (e + 1)).map fun pk =>
      (pk.2, sliceL s (e + 1) pk.1)
  else none

/-- The cell pattern `<(?:td|th)[^>]*>([\s\S]*?)<\/(?:td|th)>`. -/
def tdThAt (s : List Char) (i : Nat) : Option (Nat × List Char) :=
  ((litAtCI "<td".data s i).orElse (fun _ => litAtCI "<th".data s i)).bind fun j =>
  let e := advanceWhile (fun c => c != '>') s j
  if charAt? s e = some '>' then
    (scanFirstFrom (fun s k =>
      (litAtCI "</td>".data s k).orElse (fun _ => litAtCI "</th>".data s k))
      s (e + 1)).map fun pk => (pk.2, sliceL s (e + 1) pk.1)
  else none

/-- `extractCells`: all cells of a row, with tags stripped. -/
def extractCells (rowHtml : List Char) : List (List Char) :=
  (execAll tdThAt rowHtml).map (fun pc => stripHtmlTags pc.2)

/-- The test `/<th[\s>]/i`. -/
def hasThTag (rowHtml : List Char) : Bool :=
  (scanFirst (fun s i =>
    (litAtCI "<th".data s i).bind fun j =>
    match charAt? s j with
    | some c => if isWs c || c = '>' then some (j + 1) else none
    | none => none) rowHtml).isSome

/-- The data-row loop of `parseHtmlTable`: skip cell-less and all-empty
rows, coerce each cell through the number normaliser, keep extra cells
under `Extra_N` keys, and number the kept rows consecutively from 1. -/
def buildRowsGo (columns : List String) :
    List (List Char) → Nat → List ParsedAppendixRow
  | [], _ => []
  | rh :: rest, rn =>
    let cells := extractCells rh
    if cells.isEmpty || cells.all List.isEmpty then buildRowsGo columns rest rn
    else
      let data := columns.mapIdx (fun j col =>
        let value := cells.getD j []
        match pvnCore (jsTrim value) with
        | some q => (col, CellValue.num q)
        | none => (col, CellValue.str (String.mk value)))
      let extras := (List.range cells.length).filterMap (fun j =>
        if columns.length ≤ j then
          some ("Extra_" ++ toString (j + 1), CellValue.str (String.mk (cells.getD j [])))
        else none)
      { rowNumber := rn, data := data ++ extras, sortOrder := rn } ::
        buildRowsGo columns rest (rn + 1)

/-- `parseHtmlTable`: extract the rows, pick the header row (first row when
it has `<th>` cells or the table has several rows, else synthesize column
names), then build the numbered data rows. -/
def parseHtmlTable (tableHtml : List Char) : TextTableResult :=
  let rowMatches := (execAll trAt tableHtml).map (fun pc => pc.2)
  match rowMatches with
  | [] => { columns := [], rows := [] }
  | first :: restRows =>
    let firstRowCells := extractCells first
    let hasTh := hasThTag first
    if hasTh || !restRows.isEmpty then
      let columns := firstRowCells.mapIdx (fun i h =>
        if h.isEmpty then "Column_" ++ toString (i + 1) else String.mk h)
      { columns := columns, rows := buildRowsGo columns restRows 1 }
    else
      let columns := firstRowCells.mapIdx (fun i _ => "Column_" ++ toString (i + 1))
      { columns := columns, rows := buildRowsGo columns [first] 1 }

/-- `[UỤ]` under the `i` flag. -/
def isUorU (c : Char) : Bool := jsToLower c = 'u' || jsToLower c = 'ụ'

/-- `[IVXLCDM]` under the `i` flag. -/
def isRomanIdChar (c : Char) : Bool := "ivxlcdm".data.contains (jsToLower c)

/-- An ASCII letter (the `[A-Z]` class under the `i` flag). -/
def isLatinLetter (c : Char) : Bool := 'a' ≤ jsToLower c && jsToLower c ≤ 'z'

/-- The identifier terminator `(?:\s*[.:]\s*|\s+)`. -/
def headerIdTermAt (s : List Char) (q : Nat) : Option Nat :=
  let w := advanceWhile isWs s q
  match charAt? s w with
  | some c =>
    if c = '.' ∨ c = ':' then some (advanceWhile isWs s (w + 1))
    else if q < w then some w else none
  | none => if q < w then some w else none

/-- The optional identifier group `(?:([IVXLCDM]+|[0-9]+|[A-Z])(?:...))?` of
the appendix header, with the greedy backtracking of the `+` counters. -/
def phuLucIdAt (s : List Char) (p : Nat) : Option (Nat × Option (List Char)) :=
  let rlen := advanceWhile isRomanIdChar s p - p
  let tryRoman := (List.range rlen).findSome? (fun d =>
    let len := rlen - d
    if 1 ≤ len then
      (headerIdTermAt s (p + len)).map (fun e => (e, some (sliceL s p (p + len))))
    else none)
  match tryRoman with
  | some r => some r
  | none =>
    let dlen := advanceWhile isDigit s p - p
    let tryDigits := (List.range dlen).findSome? (fun d =>
      let len := dlen - d
      if 1 ≤ len then
        (headerIdTermAt s (p + len)).map (fun e => (e, some (sliceL s p (p + len))))
      else none)
    match tryDigits with
    | some r => some r
    | none =>
      match charAt? s p with
      | some c =>
        if isLatinLetter c then
          match headerIdTermAt s (p + 1) with
          | some e => some (e, some [c])
          | none => some (p, none)
        else some (p, none)
      | none => some (p, none)

/-- The appendix header pattern of the HTML pipeline:
`PH[UỤ]\s*L[UỤ]C\s*(?:([IVXLCDM]+|[0-9]+|[A-Z])(?:\s*[.:]\s*|\s+))?`. -/
def phuLucHeaderAt (s : List Char) (i : Nat) : Option (Nat × Option (List Char)) :=
  (litAtCI "PH".data s i).bind fun j =>
  (charAt? s j).bind fun c1 =>
  if isUorU c1 then
    let k := advanceWhile isWs s (j + 1)
    (litAtCI "L".data s k).bind fun k1 =>
    (charAt? s k1).bind fun c2 =>
    if isUorU c2 then
      (litAtCI "C".data s (k1 + 1)).bind fun k2 =>
      phuLucIdAt s (advanceWhile isWs s k2)
    else none
  else none

/-- The table pattern `<table[^>]*>([\s\S]*?)<\/table>`; the payload keeps
the whole match (the source stores `m[0]`). -/
def tableAt (s : List Char) (i : Nat) : Option (Nat × List Char) :=
  (litAtCI "<table".data s i).bind fun j =>
  let e := advanceWhile (fun c => c != '>') s j
  if charAt? s e = some '>' then
    (scanFirstFrom (fun s k => litAtCI "</table>".data s k) s (e + 1)).map fun pk =>
      (pk.2, sliceL s i pk.2)
  else none

/-- Roman digit values (`romanToInt`'s map, unknown characters count 0). -/
def romanVal (c : Char) : Nat :=
  if c = 'I' then 1 else if c = 'V' then 5 else if c = 'X' then 10
  else if c = 'L' then 50 else if c = 'C' then 100 else if c = 'D' then 500
  else if c = 'M' then 1000 else 0

/-- `romanToInt`: subtract a digit that precedes a larger one. -/
def romanToInt (roman : List Char) : Int :=
  (List.range roman.length).foldl (fun total i =>
    let cur := romanVal (roman.getD i ' ')
    let nxt := romanVal (roman.getD (i + 1) ' ')
    if cur < nxt then total - (cur : Int) else total + (cur : Int)) 0

/-- `parseAppendixNumber`: arabic digits, else roman numeral, else a single
letter (A=1), else the fallback. -/
def parseAppendixNumber (id : Option (List Char)) (fallback : Nat) : Int :=
  match id with
  | none => (fallback : Int)
  | some idc =>
    if idc.isEmpty then (fallback : Int)
    else
      let ds := idc.takeWhile isDigit
      if !ds.isEmpty then (digitsToNat ds : Int)
      else if idc.all isRomanIdChar then romanToInt (idc.map jsToUpperModel)
      else if idc.length = 1 ∧ isLatinLetter (idc.headD ' ') then
        ((jsToUpperModel (idc.headD ' ')).toNat : Int) - 64
      else (fallback : Int)

/-- `removeDiacritics` per character: NFD decomposition followed by removal
of the combining marks maps each precomposed Vietnamese vowel to its base
letter; `đ`/`Đ` have no decomposition and survive. -/
def diacriticBase (c : Char) : Char :=
  if "àáảãạăắằẳẵặâấầẩẫậ".data.contains c then 'a'
  else if "èéẻẽẹêếềểễệ".data.contains c then 'e'
  else if "ìíỉĩị".data.contains c then 'i'
  else if "òóỏõọôốồổỗộơớờởỡợ".data.contains c then 'o'
  else if "ùúủũụưứừửữự".data.contains c then 'u'
  else if "ỳýỷỹỵ".data.contains c then 'y'
  else if "ÀÁẢÃẠĂẮẰẲẴẶÂẤẦẨẪẬ".data.contains c then 'A'
  else if "ÈÉẺẼẸÊẾỀỂỄỆ".data.contains c then 'E'
  else if "ÌÍỈĨỊ".data.contains c then 'I'
  else if "ÒÓỎÕỌÔỐỒỔỖỘƠỚỜỞỠỢ".data.contains c then 'O'
  else if "ÙÚỦŨỤƯỨỪỬỮỰ".data.contains c then 'U'
  else if "ỲÝỶỸỴ".data.contains c then 'Y'
  else c

/-- The ordered keyword table for appendix classification. -/
def TYPE_KEYWORDS : List (List String × AppendixType) :=
  [ (["ban do", "bản đồ"], .MAP_LIST),
    (["chi tieu", "chỉ tiêu", "chi so", "chỉ số"], .INDICATOR_TABLE),
    (["tuyen", "tuyến", "duong", "đường"], .ROUTE_TABLE),
    (["co so", "cơ sở", "thiet che", "thiết chế"], .FACILITY_LIST),
    (["du an", "dự án", "danh muc", "danh mục"], .PROJECT_LIST) ]

/-- `classifyAppendixType`: diacritic-insensitive lowercase keyword match
over the title and body hint; first matching rule wins, default MIXED. -/
def classifyAppendixType (title : String) (bodyHint : Option String) : AppendixType :=
  let normalised :=
    ((title ++ " " ++ bodyHint.getD "").data.map diacriticBase).map jsToLower
  match TYPE_KEYWORDS.findSome? (fun kt =>
    if kt.1.any (fun kw =>
        containsSub ((kw.data.map diacriticBase).map jsToLower) normalised)
    then some kt.2 else none) with
  | some t => t
  | none => .MIXED

/-- Strip the leading `PHỤ LỤC <id>` header from the title text
(`.replace(/^PH[UỤ]\s*L[UỤ]C\s*(?:[IVXLCDM]+|[0-9]+|[A-Z])?\s*[.:]*\s*/i, "")`
followed by whitespace collapsing and a trim). -/
def stripTitleHeader (t : List Char) : List Char :=
  let stripped :=
    match (litAtCI "PH".data t 0).bind (fun j =>
      (charAt? t j).bind fun c1 =>
      if isUorU c1 then
        let k := advanceWhile isWs t (j + 1)
        (litAtCI "L".data t k).bind fun k1 =>
        (charAt? t k1).bind fun c2 =>
        if isUorU c2 then
          (litAtCI "C".data t (k1 + 1)).bind fun k2 =>
          let p := advanceWhile isWs t k2
          let idEnd :=
            let r := advanceWhile isRomanIdChar t p
            if p < r then r
            else
              let d := advanceWhile isDigit t p
              if p < d then d
              else
                match charAt? t p with
                | some c => if isLatinLetter c then p + 1 else p
                | none => p
          let w1 := advanceWhile isWs t idEnd
          let w2 := advanceWhile (fun c => c = '.' || c = ':') t w1
          some (advanceWhile isWs t w2)
        else none
      else none) with
    | some e => t.drop e
    | none => t
  jsTrim (regexReplaceAll (fun s i => wsPlusAt s i) " ".data stripped)

/-- The multi-table merge loop of `parseAppendicesFromHtml`: the first table
with columns seeds the appendix; every later table's rows are appended with
their row numbers shifted past the rows already merged.  (The source keeps
two identical branches for the matching- and mismatched-column cases.) -/
def mergeSectionTables (tables : List (List Char)) :
    List String × List ParsedAppendixRow :=
  tables.foldl (fun acc thtml =>
    let pr := parseHtmlTable thtml
    if acc.1.isEmpty then (pr.columns, pr.rows)
    else
      let offset := acc.2.length
      (acc.1, acc.2 ++ pr.rows.map (fun row =>
        { row with rowNumber := row.rowNumber + offset,
                   sortOrder := row.sortOrder + offset })))
    ([], [])

/-- `parseAppendicesFromHtml`: locate the appendix headers and the tables,
assign each table to the preceding header, extract the title, merge the
section's tables, and classify. -/
def parseAppendicesFromHtml (html : String) : List ParsedAppendix :=
  let h := html.data
  let headers := execAll phuLucHeaderAt h
  if headers.isEmpty then []
  else
    let tablePositions := execAll tableAt h
    (List.range headers.length).map fun hi =>
      let header := headers.getD hi (0, none)
      let nextHeaderIndex :=
        if hi < headers.length - 1 then (headers.getD (hi + 1) (0, none)).1
        else h.length
      let sectionTables := tablePositions.filter
        (fun t => decide (header.1 < t.1 ∧ t.1 < nextHeaderIndex))
      let titleEndIndex :=
        match sectionTables.head? with
        | some t => t.1
        | none => nextHeaderIndex
      let titleHtml := sliceL h header.1 (min titleEndIndex (header.1 + 2000))
      let titleText := stripTitleHeader (stripHtmlTags titleHtml)
      let merged := mergeSectionTables (sectionTables.map (fun t => t.2))
      let appendixNumber := parseAppendixNumber header.2 (hi + 1)
      let bodyHint := String.intercalate " " ((merged.2.take 3).map (fun r =>
        String.intercalate " " (r.data.map (fun kv => cellValueStr kv.2))))
      let appendixType := classifyAppendixType (String.mk titleText) (some bodyHint)
      { appendixNumber := appendixNumber,
        titleVi := if titleText.isEmpty then "Phu luc " ++ toString appendixNumber
          else String.mk titleText,
        appendixType := appendixType,
        columns := merged.1, rows := merged.2, sortOrder := hi + 1 }

/-- Rows are numbered contiguously from 1, and `rowNumber` equals
`sortOrder` on every row. -/
def RowsNumbered (rows : List ParsedAppendixRow) : Prop :=
  ∀ i (h : i < rows.length),
    rows[i].rowNumber = i + 1 ∧ rows[i].sortOrder = i + 1

/-- A concrete two-row table used to instantiate the merge theorem. -/
def c8t1 : List Char :=
  "<table><tr><th>A</th><th>B</th></tr><tr><td>x</td><td>1</td></tr><tr><td>y</td><td>2</td></tr></table>".data

/-- A concrete one-row continuation table with the same columns. -/
def c8t2 : List Char :=
  "<table><tr><th>A</th><th>B</th></tr><tr><td>z</td><td>3</td></tr></table>".data

/-- A concrete document: one appendix header followed by the two tables. -/
def c8Html : String :=
  "<p>PHU LUC I. DANH MUC</p>" ++ String.mk c8t1 ++ String.mk c8t2

/-! ## Basic lemmas about the character helpers -/

lemma isDigit_not_ws {c : Char} (h : isDigit c = true) : isWs c = false := by
  cases hw : isWs c
  · rfl
  · exfalso
    have hc : c = ' ' ∨ c = '\t' ∨ c = '\n' ∨ c = '\r' := by
      simpa [isWs, or_assoc] using hw
    rcases hc with rfl | rfl | rfl | rfl <;> exact absurd h (by decide)

lemma isDigit_ne {c : Char} (h : isDigit c = true) : c ≠ '.' ∧ c ≠ ',' ∧ c ≠ '-' := by
  refine ⟨?_, ?_, ?_⟩ <;> rintro rfl <;> exact absurd h (by decide)

lemma dropWhile_eq_self_of_all {p : Char → Bool} {l : List Char}
    (h : ∀ c ∈ l, p c = false) : l.dropWhile p = l := by
  cases l with
  | nil => rfl
  | cons a t => simp [List.dropWhile_cons, h a (by simp)]

lemma jsTrim_eq_self {l : List Char} (h : ∀ c ∈ l, isWs c = false) : jsTrim l = l := by
  unfold jsTrim
  rw [dropWhile_eq_self_of_all h,
    dropWhile_eq_self_of_all (fun c hc => h c (by simpa using hc)),
    List.reverse_reverse]

lemma takeWhile_eq_self_of_all {p : Char → Bool} {l : List Char}
    (h : ∀ c ∈ l, p c = true) : l.takeWhile p = l := by
  induction l with
  | nil => rfl
  | cons a t ih =>
    simp [List.takeWhile_cons, h a (by simp), ih (fun c hc => h c (by simp [hc]))]

lemma takeWhile_append_stop {p : Char → Bool} {A : List Char}
    (hA : ∀ c ∈ A, p c = true) {x : Char} (hx : p x = false) (rest : List Char) :
    (A ++ x :: rest).takeWhile p = A ∧ (A ++ x :: rest).dropWhile p = x :: rest := by
  induction A with
  | nil => simp [List.takeWhile_cons, List.dropWhile_cons, hx]
  | cons a t ih =>
    have ha := hA a (by simp)
    have ht := ih (fun c hc => hA c (by simp [hc]))
    simp [List.takeWhile_cons, List.dropWhile_cons, ha, ht.1, ht.2]

lemma splitOnChar_ne_nil (sep : Char) (l : List Char) : splitOnChar sep l ≠ [] := by
  induction l with
  | nil => simp [splitOnChar]
  | cons c r ih =>
    simp only [splitOnChar]
    rcases hr : splitOnChar sep r with _ | ⟨a, t⟩
    · simp
    · split
      · simp
      · split <;> simp

lemma splitOnChar_no_sep {sep : Char} {l : List Char} (h : ∀ c ∈ l, c ≠ sep) :
    splitOnChar sep l = [l] := by
  induction l with
  | nil => rfl
  | cons a t ih =>
    have ha : a ≠ sep := h a (by simp)
    have ht : splitOnChar sep t = [t] := ih (fun c hc => h c (by simp [hc]))
    simp [splitOnChar, ht, ha]

lemma splitOnChar_append {sep : Char} {A : List Char} (B : List Char)
    (h : ∀ c ∈ A, c ≠ sep) :
    splitOnChar sep (A ++ sep :: B) = A :: splitOnChar sep B := by
  induction A with
  | nil =>
    simp only [List.nil_append, splitOnChar]
    rcases hB : splitOnChar sep B with _ | ⟨x, t⟩
    · exact absurd hB (splitOnChar_ne_nil sep B)
    · simp
  | cons a t ih =>
    have ha : a ≠ sep := h a (by simp)
    have ht := ih (fun c hc => h c (by simp [hc]))
    simp [splitOnChar, ht, ha]

lemma removeAllChar_eq_self {a : Char} {l : List Char} (h : ∀ c ∈ l, c ≠ a) :
    removeAllChar a l = l := by
  induction l with
  | nil => rfl
  | cons c t ih =>
    have hc : c ≠ a := h c (by simp)
    have ht : List.filter (fun x => x != a) t = t :=
      ih (fun x hx => h x (by simp [hx]))
    simp only [removeAllChar, List.filter_cons]
    rw [if_pos (by simp [hc]), ht]

lemma removeAllChar_append (a : Char) (l₁ l₂ : List Char) :
    removeAllChar a (l₁ ++ l₂) = removeAllChar a l₁ ++ removeAllChar a l₂ := by
  simp [removeAllChar, List.filter_append]

lemma removeFirstChar_append_hit {a : Char} {A : List Char} (B : List Char)
    (h : ∀ c ∈ A, c ≠ a) :
    removeFirstChar a (A ++ a :: B) = A ++ B := by
  induction A with
  | nil => simp [removeFirstChar]
  | cons c t ih =>
    have hc : c ≠ a := h c (by simp)
    simp [removeFirstChar, hc, ih (fun c hc => h c (by simp [hc]))]

lemma replaceFirstChar_eq_self {a : Char} (b : Char) {l : List Char}
    (h : ∀ c ∈ l, c ≠ a) : replaceFirstChar a b l = l := by
  induction l with
  | nil => rfl
  | cons c t ih =>
    have hc : c ≠ a := h c (by simp)
    simp [replaceFirstChar, hc, ih (fun c hc => h c (by simp [hc]))]

lemma splitSign_cons_digit {c : Char} (hc : isDigit c = true) (r : List Char) :
    splitSign (c :: r) = (false, c :: r) := by
  simp [splitSign, (isDigit_ne hc).2.2]

lemma takeWhile_all_eq_nil_drop {p : Char → Bool} {l : List Char}
    (h : ∀ c ∈ l, p c = true) : l.dropWhile p = [] := by
  induction l with
  | nil => rfl
  | cons a t ih =>
    simp [List.dropWhile_cons, h a (by simp), ih (fun c hc => h c (by simp [hc]))]

lemma splitSign_signChars {neg : Bool} {a : Char} (ha : isDigit a = true) (t : List Char) :
    splitSign (signChars neg ++ a :: t) = (neg, a :: t) := by
  cases neg
  · simpa [signChars] using splitSign_cons_digit ha t
  · simp [signChars, splitSign]

lemma signChars_all_minus (neg : Bool) : ∀ c ∈ signChars neg, c = '-' := by
  cases neg <;> simp [signChars]

lemma pvnCore_grouped {l : List Char} (h0 : l.isEmpty = false)
    (h1 : matchesPureInt l = false) (h2 : matchesGrouped l = true) :
    pvnCore l = some (parseFloatVN (replaceFirstChar ',' '.' (removeAllChar '.' l))) := by
  unfold pvnCore
  rw [h0, h1, h2]
  simp

lemma pvnCore_intl {l : List Char} (h0 : l.isEmpty = false)
    (h1 : matchesPureInt l = false) (h2 : matchesGrouped l = false)
    (h3 : matchesDecimalComma l = false) (h4 : matchesIntlFloat l = true)
    {p0 p1 : List Char} (h5 : splitOnChar '.' l = [p0, p1]) :
    pvnCore l = if p1.length = 3 ∧ p0.length ≤ 3
      then some (parseFloatVN (removeFirstChar '.' l))
      else some (parseFloatVN l) := by
  unfold pvnCore
  rw [h0, h1, h2, h3, h4, h5]
  simp

example : parseVietnameseNumber "7.500" = some 7500 := by decide
example : parseVietnameseNumber "abc" = none := by decide
example : parseVietnameseNumber "-123.500" = some (-123500) := by decide

example : parseVietnameseNumber "6,5" = some (6.5 : ℚ) := by
  have h : parseVietnameseNumber "6,5"
      = some ((digitsToNat ['6'] : ℚ) + fracValQ ['5']) := rfl
  rw [h, show digitsToNat ['6'] = 6 from by decide, fracValQ,
    show digitsToNat ['5'] = 5 from by decide]
  norm_num

example : parseVietnameseNumber "1.234,56" = some (1234.56 : ℚ) := by
  have h : parseVietnameseNumber "1.234,56"
      = some ((digitsToNat ['1', '2', '3', '4'] : ℚ) + fracValQ ['5', '6']) := rfl
  rw [h, show digitsToNat ['1', '2', '3', '4'] = 1234 from by decide, fracValQ,
    show digitsToNat ['5', '6'] = 56 from by decide]
  norm_num

example : parseVietnameseNumber "1234.567" = some (1234.567 : ℚ) := by
  have h : parseVietnameseNumber "1234.567"
      = some ((digitsToNat ['1', '2', '3', '4'] : ℚ) + fracValQ ['5', '6', '7']) := rfl
  rw [h, show digitsToNat ['1', '2', '3', '4'] = 1234 from by decide, fracValQ,
    show digitsToNat ['5', '6', '7'] = 567 from by decide]
  norm_num

/-- C1: `parseVietnameseNumber` maps the four canonical test inputs as the
spec states: "7.500" to 7500, "6,5" to 6.5, "1.234,56" to 1234.56, and "abc"
to the not-a-number result (`null`, modelled as `none`). -/
theorem C1_parseVietnameseNumber_canonical :
    parseVietnameseNumber "7.500" = some 7500 ∧
    parseVietnameseNumber "6,5" = some (6.5 : ℚ) ∧
    parseVietnameseNumber "1.234,56" = some (1234.56 : ℚ) ∧
    parseVietnameseNumber "abc" = none := by
  refine ⟨by decide, ?_, ?_, by decide⟩
  · have h : parseVietnameseNumber "6,5"
        = some ((digitsToNat ['6'] : ℚ) + fracValQ ['5']) := rfl
    rw [h, show digitsToNat ['6'] = 6 from by decide, fracValQ,
      show digitsToNat ['5'] = 5 from by decide]
    norm_num
  · have h : parseVietnameseNumber "1.234,56"
        = some ((digitsToNat ['1', '2', '3', '4'] : ℚ) + fracValQ ['5', '6']) := rfl
    rw [h, show digitsToNat ['1', '2', '3', '4'] = 1234 from by decide, fracValQ,
      show digitsToNat ['5', '6'] = 56 from by decide]
    norm_num

/-- C2: on every input of the shape `-?\d+\.\d+`, `parseVietnameseNumber`
returns the thousands-grouped integer obtained by deleting the dot when the
fractional part is exactly 3 digits and the integer part is 1 to 3 digits,
and otherwise the genuine dot-decimal value. -/
theorem C2_intl_float_heuristic (neg : Bool) (A B : List Char)
    (hA : A ≠ []) (hB : B ≠ [])
    (hAd : allDigits A = true) (hBd : allDigits B = true) :
    parseVietnameseNumber (String.mk (signChars neg ++ (A ++ '.' :: B))) =
      some (qsign neg (if B.length = 3 ∧ A.length ≤ 3
        then (digitsToNat (A ++ B) : ℚ)
        else (digitsToNat A : ℚ) + fracValQ B)) := by
  have hAd' : ∀ c ∈ A, isDigit c = true := fun c hc => List.all_eq_true.mp hAd c hc
  have hBd' : ∀ c ∈ B, isDigit c = true := fun c hc => List.all_eq_true.mp hBd c hc
  obtain ⟨a, A', rfl⟩ : ∃ a A', A = a :: A' := by
    rcases A with _ | ⟨a, A'⟩
    · exact absurd rfl hA
    · exact ⟨a, A', rfl⟩
  have hadig : isDigit a = true := hAd' a (by simp)
  -- the trimmed character list and its decompositions
  have hws : ∀ c ∈ signChars neg ++ ((a :: A') ++ '.' :: B), isWs c = false := by
    intro c hc
    simp only [List.mem_append, List.mem_cons] at hc
    rcases hc with hc | hc | rfl | hc
    · rw [signChars_all_minus neg c hc]; decide
    · exact isDigit_not_ws (hAd' c (by simpa using hc))
    · decide
    · exact isDigit_not_ws (hBd' c hc)
  have htrim : jsTrim (signChars neg ++ ((a :: A') ++ '.' :: B))
      = signChars neg ++ ((a :: A') ++ '.' :: B) := jsTrim_eq_self hws
  have hss : splitSign (signChars neg ++ ((a :: A') ++ '.' :: B))
      = (neg, (a :: A') ++ '.' :: B) := by
    rw [List.cons_append]
    exact splitSign_signChars hadig _
  have hrd : allDigits ((a :: A') ++ '.' :: B) = false := by
    simp [allDigits, List.all_append, List.all_cons, show isDigit '.' = false from by decide]
  have hnc : ∀ c ∈ (a :: A') ++ '.' :: B, c ≠ ',' := by
    intro c hc
    simp only [List.mem_append, List.mem_cons] at hc
    rcases hc with hc | rfl | hc
    · exact (isDigit_ne (hAd' c (by simpa using hc))).2.1
    · decide
    · exact (isDigit_ne (hBd' c hc)).2.1
  have hAnd : ∀ c ∈ a :: A', c ≠ '.' := fun c hc => (isDigit_ne (hAd' c hc)).1
  have hBnd : ∀ c ∈ B, c ≠ '.' := fun c hc => (isDigit_ne (hBd' c hc)).1
  have hsplitComma : splitOnChar ',' ((a :: A') ++ '.' :: B) = [(a :: A') ++ '.' :: B] :=
    splitOnChar_no_sep hnc
  have hsplitDotR : splitOnChar '.' ((a :: A') ++ '.' :: B) = [a :: A', B] := by
    rw [splitOnChar_append B hAnd, splitOnChar_no_sep hBnd]
  have hsignnd : ∀ c ∈ signChars neg ++ (a :: A'), c ≠ '.' := by
    intro c hc
    rcases List.mem_append.mp hc with hc | hc
    · rw [signChars_all_minus neg c hc]; decide
    · exact hAnd c hc
  have hsplitDotL : splitOnChar '.' (signChars neg ++ ((a :: A') ++ '.' :: B))
      = [signChars neg ++ (a :: A'), B] := by
    rw [show signChars neg ++ ((a :: A') ++ '.' :: B)
        = (signChars neg ++ (a :: A')) ++ '.' :: B from by simp,
      splitOnChar_append B hsignnd, splitOnChar_no_sep hBnd]
  have hne : (signChars neg ++ ((a :: A') ++ '.' :: B)).isEmpty = false := by
    cases neg <;> simp [signChars]
  have hpure : matchesPureInt (signChars neg ++ ((a :: A') ++ '.' :: B)) = false := by
    simp only [matchesPureInt, hss, hrd, Bool.and_false]
  have hdc : matchesDecimalComma (signChars neg ++ ((a :: A') ++ '.' :: B)) = false := by
    simp only [matchesDecimalComma, hss, hsplitComma]
  have hBne : B.isEmpty = false := by
    cases B with
    | nil => exact absurd rfl hB
    | cons x xs => rfl
  have hif : matchesIntlFloat (signChars neg ++ ((a :: A') ++ '.' :: B)) = true := by
    simp only [matchesIntlFloat, hss, hsplitDotR]
    simp [hAd, hBd, hBne]
  show pvnCore (jsTrim (signChars neg ++ ((a :: A') ++ '.' :: B))) = _
  rw [htrim]
  by_cases hc3 : B.length = 3 ∧ (a :: A').length ≤ 3
  · -- grouped case: pattern 2 of the source fires and strips the dots
    have hg : matchesGrouped (signChars neg ++ ((a :: A') ++ '.' :: B)) = true := by
      simp only [matchesGrouped, hss, hsplitComma]
      simp only [groupedIntOk, hsplitDotR]
      rw [decide_eq_true_eq]
      refine ⟨⟨by simp, hc3.2⟩, hAd, by simp, ?_⟩
      intro g hg
      rw [List.mem_singleton] at hg
      subst hg
      exact ⟨hc3.1, hBd⟩
    have hremove : removeAllChar '.' (signChars neg ++ ((a :: A') ++ '.' :: B))
        = signChars neg ++ ((a :: A') ++ B) := by
      rw [removeAllChar_append, removeAllChar_append]
      rw [removeAllChar_eq_self (fun c hc => by rw [signChars_all_minus neg c hc]; decide),
        removeAllChar_eq_self hAnd]
      congr 1
      congr 1
      simp only [removeAllChar, List.filter_cons]
      rw [if_neg (by simp)]
      exact removeAllChar_eq_self hBnd
    have hnc2 : ∀ c ∈ signChars neg ++ ((a :: A') ++ B), c ≠ ',' := by
      intro c hc
      rcases List.mem_append.mp hc with hc | hc
      · rw [signChars_all_minus neg c hc]; decide
      · rcases List.mem_append.mp hc with hc | hc
        · exact (isDigit_ne (hAd' c hc)).2.1
        · exact (isDigit_ne (hBd' c hc)).2.1
    have hval : parseFloatVN (signChars neg ++ ((a :: A') ++ B))
        = qsign neg (digitsToNat ((a :: A') ++ B) : ℚ) := by
      simp only [parseFloatVN]
      rw [show signChars neg ++ ((a :: A') ++ B) = signChars neg ++ (a :: (A' ++ B))
          from by simp, splitSign_signChars hadig]
      have hall : ∀ c ∈ a :: (A' ++ B), isDigit c = true := by
        intro c hc
        simp only [List.mem_cons, List.mem_append] at hc
        rcases hc with rfl | hc | hc
        · exact hadig
        · exact hAd' c (by simp [hc])
        · exact hBd' c hc
      rw [takeWhile_eq_self_of_all hall, takeWhile_all_eq_nil_drop hall]
      simp [qsign]
    rw [pvnCore_grouped hne hpure hg,
      replaceFirstChar_eq_self '.' (fun c hc => hnc2 c (by rwa [hremove] at hc)),
      hremove, hval, if_pos hc3]
  · -- genuine decimal case: pattern 4 of the source parses a dot decimal
    have hgF : matchesGrouped (signChars neg ++ ((a :: A') ++ '.' :: B)) = false := by
      simp only [matchesGrouped, hss, hsplitComma]
      simp only [groupedIntOk, hsplitDotR]
      rw [decide_eq_false_iff_not]
      rintro ⟨⟨h1, hle⟩, hda, hnt, hall⟩
      exact hc3 ⟨(hall B (by simp)).1, hle⟩
    have hcond2 : ¬ (B.length = 3 ∧ (signChars neg ++ (a :: A')).length ≤ 3) := by
      rintro ⟨h3, hle⟩
      rw [List.length_append] at hle
      exact hc3 ⟨h3, by omega⟩
    have hval : parseFloatVN (signChars neg ++ ((a :: A') ++ '.' :: B))
        = qsign neg ((digitsToNat (a :: A') : ℚ) + fracValQ B) := by
      simp only [parseFloatVN]
      rw [show signChars neg ++ ((a :: A') ++ '.' :: B)
          = signChars neg ++ (a :: (A' ++ '.' :: B)) from by simp,
        splitSign_signChars hadig,
        show a :: (A' ++ '.' :: B) = (a :: A') ++ '.' :: B from by simp]
      obtain ⟨htw, hdw⟩ := takeWhile_append_stop hAd'
        (show isDigit '.' = false from by decide) B
      rw [htw, hdw]
      simp only [List.head?_cons, List.drop_succ_cons, List.drop_zero]
      rw [takeWhile_eq_self_of_all hBd']
      simp [qsign]
    rw [pvnCore_intl hne hpure hgF hdc hif hsplitDotL, if_neg hcond2, hval, if_neg hc3]

/-! ## Lemmas about the section parser stack invariant -/

lemma finalizeFrame_level (f : Frame) : (finalizeFrame f).level = f.level := rfl

lemma finalizeFrame_good {f : Frame} (h : FrameOk f) : GoodTree (finalizeFrame f) :=
  GoodTree.node _ _ _ _ _ _ (fun c hc => (h c hc).1) (fun c hc => (h c hc).2)

lemma closeUntil_inv (p : Nat) :
    ∀ (n : Nat) (stack : List Frame) (roots : List ParsedSection),
      stack.length ≤ n → StInv roots stack →
      StInv (closeUntil p roots stack).1 (closeUntil p roots stack).2 ∧
      ((closeUntil p roots stack).2 = [] ∨
        ∃ f rest, (closeUntil p roots stack).2 = f :: rest ∧
          LEVEL_PRIORITY f.level < p) := by
  intro n
  induction n with
  | zero =>
    intro stack roots hlen hinv
    obtain rfl : stack = [] := List.eq_nil_of_length_eq_zero (Nat.le_zero.mp hlen)
    rw [closeUntil.eq_def]
    exact ⟨hinv, Or.inl rfl⟩
  | succ n ih =>
    intro stack roots hlen hinv
    match stack with
    | [] =>
      rw [closeUntil.eq_def]
      exact ⟨hinv, Or.inl rfl⟩
    | f :: rest =>
      rw [closeUntil.eq_def]
      dsimp only
      by_cases hp : LEVEL_PRIORITY f.level < p
      · rw [if_pos hp]
        exact ⟨hinv, Or.inr ⟨f, rest, rfl, hp⟩⟩
      · rw [if_neg hp]
        have hfok : FrameOk f := hinv.frames f (List.mem_cons_self _ _)
        match rest with
        | [] =>
          apply ih [] _ (by simp)
          refine ⟨?_, List.chain'_nil, by intro g hg; simp at hg⟩
          intro s hs
          rcases List.mem_append.mp hs with hs | hs
          · exact hinv.rootsOk s hs
          · rw [List.mem_singleton] at hs
            subst hs
            exact finalizeFrame_good hfok
        | g :: gs =>
          apply ih _ _ (by simpa using Nat.le_of_succ_le_succ hlen)
          have hchain := hinv.chain
          rw [StackChain, List.chain'_cons] at hchain
          refine ⟨hinv.rootsOk, ?_, ?_⟩
          · -- the updated head has the same level as g
            rw [StackChain]
            rcases gs with _ | ⟨h1, t1⟩
            · exact List.chain'_singleton _
            · rw [List.chain'_cons]
              have := hchain.2
              rw [List.chain'_cons] at this
              exact ⟨this.1, this.2⟩
          · intro fr hfr
            rcases List.mem_cons.mp hfr with rfl | hfr
            · intro c hc
              rcases List.mem_append.mp hc with hc | hc
              · exact hinv.frames g (List.mem_cons_of_mem _ (List.mem_cons_self _ _)) c hc
              · rw [List.mem_singleton] at hc
                subst hc
                exact ⟨hchain.1, finalizeFrame_good hfok⟩
            · exact hinv.frames fr
                (List.mem_cons_of_mem _ (List.mem_cons_of_mem _ hfr))

lemma processLine_inv {st : PState} (line : String)
    (h : StInv st.roots st.stack) :
    StInv (processLine st line).roots (processLine st line).stack := by
  simp only [processLine]
  split
  · exact h
  · split
    case h_1 m heq =>
      obtain ⟨hinv, hpost⟩ :=
        closeUntil_inv (LEVEL_PRIORITY m.level) st.stack.length st.stack st.roots
          le_rfl h
      refine ⟨hinv.rootsOk, ?_, ?_⟩
      · rw [StackChain]
        rcases hpost with hnil | ⟨f, rest, heq2, hlt⟩
        · rw [hnil]
          exact List.chain'_singleton _
        · rw [heq2, List.chain'_cons]
          have : StackChain (f :: rest) := heq2 ▸ hinv.chain
          exact ⟨hlt, this⟩
      · intro fr hfr
        rcases List.mem_cons.mp hfr with rfl | hfr
        · intro c hc
          simp [createFrame] at hc
        · exact hinv.frames fr hfr
    case h_2 heq =>
      split
      case h_1 f rest heq2 =>
        have hchain := h.chain
        rw [heq2] at hchain
        refine ⟨h.rootsOk, ?_, ?_⟩
        · rw [StackChain]
          rcases rest with _ | ⟨g, gs⟩
          · exact List.chain'_singleton _
          · rw [List.chain'_cons]
            rw [StackChain, List.chain'_cons] at hchain
            exact hchain
        · intro fr hfr
          rcases List.mem_cons.mp hfr with rfl | hfr
          · exact h.frames f (heq2 ▸ List.mem_cons_self _ _)
          · exact h.frames fr (heq2 ▸ List.mem_cons_of_mem _ hfr)
      case h_2 => exact h

lemma foldl_processLine_inv :
    ∀ (ls : List String) (st : PState), StInv st.roots st.stack →
      StInv (ls.foldl processLine st).roots (ls.foldl processLine st).stack := by
  intro ls
  induction ls with
  | nil => intro st h; exact h
  | cons l t ih => intro st h; exact ih _ (processLine_inv l h)

/-- C3: in the section tree returned by parseStructure, every child
section's level is strictly deeper (has a strictly higher priority number in
the DIEU < ROMAN < ARABIC < LETTER < DASH order) than its parent's. -/
theorem C3_child_strictly_deeper (text : String) :
    GoodSections (parseStructure text).sections := by
  simp only [parseStructure]
  have h0 : StInv (PState.mk [] [] 0).roots (PState.mk [] [] 0).stack := by
    refine ⟨?_, List.chain'_nil, ?_⟩
    · intro s hs; simp at hs
    · intro f hf; simp at hf
  have h1 := foldl_processLine_inv
    ((List.take
        (signatureStartIdx (List.map String.mk (splitOnChar '\n' text.data))
          (preambleEndIdx (List.map String.mk (splitOnChar '\n' text.data))))
        (List.map String.mk (splitOnChar '\n' text.data))).drop
      (preambleEndIdx (List.map String.mk (splitOnChar '\n' text.data))))
    (PState.mk [] [] 0) h0
  exact (closeUntil_inv 0 _ _ _ le_rfl h1).1.rootsOk

/-! ## Lemmas about the extractor pipeline -/

lemma insSorted_mem {a x : KpiMatch} {l : List KpiMatch} (h : x ∈ insSorted a l) :
    x = a ∨ x ∈ l := by
  induction l with
  | nil => simpa [insSorted] using h
  | cons b t ih =>
    simp only [insSorted] at h
    split at h
    · rw [List.mem_cons] at h
      rcases h with rfl | h
      · right; exact List.mem_cons_self _ _
      · rcases ih h with rfl | h2
        · left; rfl
        · right; exact List.mem_cons_of_mem _ h2
    · rw [List.mem_cons] at h
      rcases h with rfl | h
      · left; rfl
      · right; exact h

lemma foldl_insSorted_mem {x : KpiMatch} :
    ∀ (l acc : List KpiMatch),
      x ∈ l.foldl (fun acc a => insSorted a acc) acc → x ∈ acc ∨ x ∈ l := by
  intro l
  induction l with
  | nil => intro acc h; left; exact h
  | cons a t ih =>
    intro acc h
    rcases ih _ h with h2 | h2
    · rcases insSorted_mem h2 with rfl | h3
      · right; exact List.mem_cons_self _ _
      · left; exact h3
    · right; exact List.mem_cons_of_mem _ h2

lemma sortByIndex_mem {x : KpiMatch} {l : List KpiMatch} (h : x ∈ sortByIndex l) :
    x ∈ l := by
  rcases foldl_insSorted_mem l [] h with h2 | h2
  · simp at h2
  · exact h2

lemma scanPatternGo_sound {tf : List Char → Nat → Option RawKpi} {s : List Char} :
    ∀ {fuel i} {im : Nat × RawKpi},
      im ∈ scanPatternGo tf s i fuel → tf s im.1 = some im.2 := by
  intro fuel
  induction fuel with
  | zero => intro i im h; simp [scanPatternGo] at h
  | succ n ih =>
    intro i im h
    simp only [scanPatternGo] at h
    split at h
    · simp at h
    · split at h
      case h_1 m heq =>
        rw [List.mem_cons] at h
        rcases h with rfl | h
        · exact heq
        · exact ih h
      case h_2 heq => exact ih h

lemma kpiInner_foldl_mem {c : Comparison} :
    ∀ (lst : List (Nat × RawKpi)) (acc : List (Nat × Nat) × List KpiMatch)
      {km : KpiMatch},
      km ∈ (lst.foldl (kpiInnerStep c) acc).2 →
      km ∈ acc.2 ∨ ∃ im ∈ lst, km = mkKpiMatch c im.1 im.2 := by
  intro lst
  induction lst with
  | nil => intro acc km h; left; exact h
  | cons x xs ih =>
    intro acc km h
    rcases ih _ h with h2 | ⟨im, him, rfl⟩
    · simp only [kpiInnerStep] at h2
      split at h2
      · left; exact h2
      · rw [List.mem_append, List.mem_singleton] at h2
        rcases h2 with h2 | rfl
        · left; exact h2
        · right; exact ⟨x, List.mem_cons_self _ _, rfl⟩
    · right; exact ⟨im, List.mem_cons_of_mem _ him, rfl⟩

lemma kpiOuter_foldl_mem {s : List Char} :
    ∀ (PS : List (Comparison × (List Char → Nat → Option RawKpi)))
      (acc : List (Nat × Nat) × List KpiMatch) {km : KpiMatch},
      km ∈ (PS.foldl (kpiOuterStep s) acc).2 →
      km ∈ acc.2 ∨ ∃ p ∈ PS, ∃ i r, p.2 s i = some r ∧ km = mkKpiMatch p.1 i r := by
  intro PS
  induction PS with
  | nil => intro acc km h; left; exact h
  | cons p ps ih =>
    intro acc km h
    rcases ih _ h with h2 | ⟨q, hq, i, r, hqr, rfl⟩
    · unfold kpiOuterStep at h2
      rcases kpiInner_foldl_mem _ _ h2 with h3 | ⟨im, him, rfl⟩
      · left; exact h3
      · right
        refine ⟨p, List.mem_cons_self _ _, im.1, im.2, ?_, rfl⟩
        unfold scanPattern at him
        exact scanPatternGo_sound him
    · right; exact ⟨q, List.mem_cons_of_mem _ hq, i, r, hqr, rfl⟩

lemma findKpiMatches_mem {s : List Char} {km : KpiMatch} (h : km ∈ findKpiMatches s) :
    ∃ p ∈ KPI_REGEX_PATTERNS, ∃ i r, p.2 s i = some r ∧ km = mkKpiMatch p.1 i r := by
  unfold findKpiMatches at h
  rcases kpiOuter_foldl_mem _ _ (sortByIndex_mem h) with h3 | h3
  · simp at h3
  · exact h3

lemma orElse_eq_some {α : Type} {x : Option α} {y : Unit → Option α} {r : α}
    (h : x.orElse y = some r) : x = some r ∨ y () = some r := by
  cases x with
  | none => right; simpa [Option.orElse] using h
  | some a => left; simpa [Option.orElse] using h

lemma kwMand_vs2 {ws alts s i r} (h : kwMand ws alts s i = some r) :
    r.valueStr2 = none := by
  unfold kwMand at h
  rcases Option.bind_eq_some.mp h with ⟨ev, _, h2⟩
  rcases Option.map_eq_some'.mp h2 with ⟨eu, _, rfl⟩
  rfl

lemma kwOpt_vs2 {ws alts s i r} (h : kwOpt ws alts s i = some r) :
    r.valueStr2 = none := by
  unfold kwOpt at h
  rcases Option.map_eq_some'.mp h with ⟨ev, _, rfl⟩
  rfl

lemma tren_vs2 {s i r} (h : trenTryAt s i = some r) : r.valueStr2 = none := by
  unfold trenTryAt at h
  split at h
  · exact kwMand_vs2 h
  · exact absurd h (by simp)

lemma duoi_vs2 {s i r} (h : duoiTryAt s i = some r) : r.valueStr2 = none := by
  unfold duoiTryAt at h
  split at h
  · rcases orElse_eq_some h with h2 | h2
    · rcases Option.map_eq_some'.mp h2 with ⟨ev, hev, rfl⟩
      exact kwOpt_vs2 hev
    · exact kwOpt_vs2 h2
  · exact kwOpt_vs2 h

lemma co_vs2 {s i r} (h : coTryAt s i = some r) : r.valueStr2 = none := by
  unfold coTryAt at h
  split at h
  · exact kwMand_vs2 h
  · exact absurd h (by simp)

lemma barePct_vs2 {s i r} (h : barePctTryAt s i = some r) : r.valueStr2 = none := by
  unfold barePctTryAt at h
  split at h
  · rcases orElse_eq_some h with h2 | h2 <;>
    · simp only [] at h2
      split at h2
      · split at h2
        · split at h2
          · exact absurd h2 (by simp)
          · cases h2; rfl
        · exact absurd h2 (by simp)
      · exact absurd h2 (by simp)
  · exact absurd h (by simp)

lemma standalone_vs2 {s i r} (h : standaloneUnitTryAt s i = some r) :
    r.valueStr2 = none := by
  unfold standaloneUnitTryAt at h
  rcases Option.bind_eq_some.mp h with ⟨ev, _, h2⟩
  rcases Option.map_eq_some'.mp h2 with ⟨eu, _, rfl⟩
  rfl

lemma usd_vs2 {s i r} (h : usdTryAt s i = some r) : r.valueStr2 = none := by
  unfold usdTryAt at h
  rcases Option.bind_eq_some.mp h with ⟨ev, _, h2⟩
  rcases Option.bind_eq_some.mp h2 with ⟨j, _, h3⟩
  rcases Option.map_eq_some'.mp h3 with ⟨k, _, rfl⟩
  rfl

lemma KPI_patterns_vs2 :
    ∀ p ∈ KPI_REGEX_PATTERNS, p.1 = Comparison.range ∨
      ∀ s i r, p.2 s i = some r → r.valueStr2 = none := by
  intro p hp
  simp only [KPI_REGEX_PATTERNS, List.mem_cons, List.not_mem_nil, or_false] at hp
  rcases hp with rfl | rfl | rfl | rfl | rfl | rfl | rfl | rfl | rfl | rfl | rfl |
    rfl | rfl | rfl | rfl
  · left; rfl
  · right; intro s i r h; exact kwMand_vs2 h
  · right; intro s i r h; exact kwOpt_vs2 h
  · right; intro s i r h; exact tren_vs2 h
  · right; intro s i r h; exact duoi_vs2 h
  · right; intro s i r h; exact kwOpt_vs2 h
  · right; intro s i r h; exact kwMand_vs2 h
  · right; intro s i r h
    rcases orElse_eq_some h with h2 | h2
    · exact kwMand_vs2 h2
    · exact kwMand_vs2 h2
  · right; intro s i r h
    rcases orElse_eq_some h with h2 | h2
    · exact kwMand_vs2 h2
    · exact kwMand_vs2 h2
  · right; intro s i r h; exact kwOpt_vs2 h
  · right; intro s i r h; exact kwOpt_vs2 h
  · right; intro s i r h; exact co_vs2 h
  · right; intro s i r h; exact barePct_vs2 h
  · right; intro s i r h; exact standalone_vs2 h
  · right; intro s i r h; exact usd_vs2 h

lemma findKpiMatches_vs2 {s : List Char} {km : KpiMatch} (h : km ∈ findKpiMatches s)
    (hc : km.comparison ≠ Comparison.range) : km.valueStr2 = none := by
  rcases findKpiMatches_mem h with ⟨p, hp, i, r, hpr, rfl⟩
  rcases KPI_patterns_vs2 p hp with h1 | h1
  · exact absurd (by simp [mkKpiMatch, h1]) hc
  · simpa [mkKpiMatch] using h1 s i r hpr

lemma dedupGo_mem : ∀ {seen : List String} {l : List ExtractedTarget}
    {t : ExtractedTarget}, t ∈ dedupGo seen l → t ∈ l := by
  intro seen l
  induction l generalizing seen with
  | nil => intro t h; simpa [dedupGo] using h
  | cons x xs ih =>
    intro t h
    simp only [dedupGo] at h
    split at h
    · exact List.mem_cons_of_mem _ (ih h)
    · rcases List.mem_cons.mp h with rfl | h2
      · exact List.mem_cons_self _ _
      · exact List.mem_cons_of_mem _ (ih h2)

lemma dedupGo_first : ∀ {seen : List String} {l : List ExtractedTarget}
    {u : ExtractedTarget}, u ∈ dedupGo seen l →
    dedupKey u ∉ seen ∧ l.find? (fun t => dedupKey t == dedupKey u) = some u := by
  intro seen l
  induction l generalizing seen with
  | nil => intro u h; simp [dedupGo] at h
  | cons x xs ih =>
    intro u h
    simp only [dedupGo] at h
    split at h
    case isTrue hx =>
      obtain ⟨h1, h2⟩ := ih h
      refine ⟨h1, ?_⟩
      have hne : (dedupKey x == dedupKey u) = false := by
        rw [beq_eq_false_iff_ne]
        intro he
        exact h1 (he ▸ hx)
      rw [List.find?_cons_of_neg _ (by simp [hne]), h2]
    case isFalse hx =>
      rcases List.mem_cons.mp h with rfl | h2
      · exact ⟨hx, List.find?_cons_of_pos _ (by simp)⟩
      · obtain ⟨h1, hfind⟩ := ih h2
        have hxu : dedupKey u ≠ dedupKey x := by
          intro he
          exact h1 (by simp [he])
        refine ⟨fun hs => h1 (List.mem_cons_of_mem _ hs), ?_⟩
        rw [List.find?_cons_of_neg _ (by simp; exact fun he => hxu he.symm), hfind]

lemma dedupGo_pairwise : ∀ {seen : List String} {l : List ExtractedTarget},
    (dedupGo seen l).Pairwise (fun a b => dedupKey a ≠ dedupKey b) := by
  intro seen l
  induction l generalizing seen with
  | nil => simp [dedupGo]
  | cons x xs ih =>
    simp only [dedupGo]
    split
    · exact ih
    case isFalse hx =>
      refine List.Pairwise.cons ?_ ih
      intro b hb he
      exact (dedupGo_first hb).1 (by simp [he])

lemma find?_of_stronger {α : Type} {p q : α → Bool} {l : List α} {u : α}
    (himp : ∀ x, q x = true → p x = true) (hq : q u = true)
    (h : l.find? p = some u) : l.find? q = some u := by
  induction l with
  | nil => simp at h
  | cons a t ih =>
    cases hqa : q a
    · cases hpa : p a
      · rw [List.find?_cons_of_neg _ (by simp [hpa])] at h
        rw [List.find?_cons_of_neg _ (by simp [hqa])]
        exact ih h
      · rw [List.find?_cons_of_pos _ hpa] at h
        obtain rfl : a = u := by simpa using h
        rw [hq] at hqa
        exact absurd hqa (by simp)
    · rw [List.find?_cons_of_pos _ (himp a hqa)] at h
      obtain rfl : a = u := by simpa using h
      rw [List.find?_cons_of_pos _ hqa]

lemma dedupKey_congr {a b : ExtractedTarget} (h : dedupTuple a = dedupTuple b) :
    dedupKey a = dedupKey b := by
  unfold dedupTuple at h
  obtain ⟨h1, h2, h3, h4, h5⟩ :
      a.nameVi = b.nameVi ∧ a.targetValue = b.targetValue ∧ a.unit = b.unit ∧
        a.targetMin = b.targetMin ∧ a.targetMax = b.targetMax := by
    simpa [Prod.ext_iff] using h
  unfold dedupKey
  rw [h1, h2, h3, h4, h5]

lemma applyComparison_type (c : Comparison) (v1 v2 : Option ℚ) (t : ExtractedTarget) :
    (applyComparison c v1 v2 t).targetType = t.targetType := by
  cases c <;> cases v1 <;> cases v2 <;> rfl

lemma attachYearPeriod_type (y : Option Nat) (p : Option Nat × Option Nat)
    (t : ExtractedTarget) : (attachYearPeriod y p t).targetType = t.targetType := by
  simp only [attachYearPeriod]
  split <;> split <;> rfl

lemma attachYearPeriod_value (y : Option Nat) (p : Option Nat × Option Nat)
    (t : ExtractedTarget) : (attachYearPeriod y p t).targetValue = t.targetValue := by
  simp only [attachYearPeriod]
  split <;> split <;> rfl

lemma attachYearPeriod_min (y : Option Nat) (p : Option Nat × Option Nat)
    (t : ExtractedTarget) : (attachYearPeriod y p t).targetMin = t.targetMin := by
  simp only [attachYearPeriod]
  split <;> split <;> rfl

lemma attachYearPeriod_max (y : Option Nat) (p : Option Nat × Option Nat)
    (t : ExtractedTarget) : (attachYearPeriod y p t).targetMax = t.targetMax := by
  simp only [attachYearPeriod]
  split <;> split <;> rfl

lemma applyComparison_someField {c : Comparison} {v1 v2 : Option ℚ}
    {t : ExtractedTarget} (hguard : ¬(v1 = none ∧ v2 = none))
    (hv2 : c ≠ Comparison.range → v2 = none) :
    (applyComparison c v1 v2 t).targetValue.isSome = true ∨
    (applyComparison c v1 v2 t).targetMin.isSome = true ∨
    (applyComparison c v1 v2 t).targetMax.isSome = true := by
  cases c with
  | range =>
    cases v1 with
    | some a =>
      cases v2 with
      | some b => right; left; rfl
      | none => right; left; rfl
    | none =>
      cases v2 with
      | some b => right; right; rfl
      | none => exact absurd ⟨rfl, rfl⟩ hguard
  | above =>
    cases v1 with
    | some a => left; rfl
    | none => exact absurd ⟨rfl, hv2 (by simp)⟩ hguard
  | below =>
    cases v1 with
    | some a => left; rfl
    | none => exact absurd ⟨rfl, hv2 (by simp)⟩ hguard
  | approximately =>
    cases v1 with
    | some a => left; rfl
    | none => exact absurd ⟨rfl, hv2 (by simp)⟩ hguard
  | exact =>
    cases v1 with
    | some a => left; rfl
    | none => exact absurd ⟨rfl, hv2 (by simp)⟩ hguard

/-- Membership in the pre-deduplication list decomposes into the sentence,
clause and pattern match that produced the target. -/
lemma rawTargets_mem {l : List Char} {t : ExtractedTarget}
    (h : t ∈ rawTargetsRuleBased l) :
    ∃ sentence ∈ splitSentences l, ∃ clause ∈ splitSubClauses sentence,
      ∃ m ∈ findKpiMatches clause, buildTarget sentence clause m = some t := by
  simp only [rawTargetsRuleBased, List.mem_flatMap, List.mem_filterMap] at h
  obtain ⟨sen, hsen, clause, hcl, m, hm, hb⟩ := h
  exact ⟨sen, hsen, clause, hcl, m, hm, hb⟩

/-- Concrete evaluation of the pipeline on the spec's range-parsing clause. -/
lemma c6_clause_eval :
    extractTargetsRuleBased "tăng trưởng bình quân đạt 6,5 - 7,0%/năm" =
    [{ targetType := .QUANTITATIVE
       nameVi := "tăng trưởng bình quân"
       unit := some "%/năm"
       targetValue := some ((((digitsToNat ['6'] : ℚ) + fracValQ ['5']) +
         ((digitsToNat ['7'] : ℚ) + fracValQ ['0'])) / 2)
       targetMin := some ((digitsToNat ['6'] : ℚ) + fracValQ ['5'])
       targetMax := some ((digitsToNat ['7'] : ℚ) + fracValQ ['0'])
       rawTextVi := "tăng trưởng bình quân đạt 6,5 - 7,0%/năm" }] := rfl

/-- Concrete evaluation of the pipeline on a minimal percentage clause. -/
lemma c50_clause_eval :
    extractTargetsRuleBased "đạt 50%" =
    [{ targetType := .QUANTITATIVE
       nameVi := "đạt"
       unit := some "%"
       targetValue := some 50
       rawTextVi := "đạt 50%" }] := rfl

/-- C4: the list returned by extractTargetsRuleBased contains no two targets
with the same (nameVi, targetValue, unit, targetMin, targetMax) tuple, and
every returned target is the first element of the accumulated (pre-dedup)
list carrying its tuple — duplicates keep the first occurrence. -/
theorem C4_dedup_unique_first (text : String) :
    (extractTargetsRuleBased text).Pairwise (fun a b => dedupTuple a ≠ dedupTuple b) ∧
    ∀ u ∈ extractTargetsRuleBased text,
      (rawTargetsRuleBased text.data).find?
        (fun t => dedupTuple t == dedupTuple u) = some u := by
  constructor
  · exact dedupGo_pairwise.imp (fun h he => h (dedupKey_congr he))
  · intro u hu
    refine find?_of_stronger (fun x hx => ?_) (by simp) (dedupGo_first hu).2
    rw [beq_iff_eq] at hx ⊢
    exact dedupKey_congr hx

/-- Witness for C4 at the concrete input "đạt 50%". -/
theorem C4_dedup_unique_first_witness :
    (extractTargetsRuleBased "đạt 50%").Pairwise
      (fun a b => dedupTuple a ≠ dedupTuple b) ∧
    (rawTargetsRuleBased "đạt 50%".data).find?
      (fun t => dedupTuple t == dedupTuple
        { targetType := .QUANTITATIVE, nameVi := "đạt", unit := some "%",
          targetValue := some 50, rawTextVi := "đạt 50%" }) =
      some { targetType := .QUANTITATIVE, nameVi := "đạt", unit := some "%",
             targetValue := some 50, rawTextVi := "đạt 50%" } := by
  refine ⟨(C4_dedup_unique_first "đạt 50%").1,
    (C4_dedup_unique_first "đạt 50%").2 _ ?_⟩
  rw [c50_clause_eval]
  exact List.mem_singleton.mpr rfl

/-- C5: every target emitted by extractTargetsRuleBased carries at least one
of targetValue, targetMin, targetMax; a candidate whose numerals all fail
number parsing is discarded by the guard and never emitted. -/
theorem C5_no_empty_target (text : String) (t : ExtractedTarget)
    (ht : t ∈ extractTargetsRuleBased text) :
    t.targetValue.isSome = true ∨ t.targetMin.isSome = true ∨
      t.targetMax.isSome = true := by
  obtain ⟨sen, _, clause, _, m, hm, hb⟩ := rawTargets_mem (dedupGo_mem ht)
  simp only [buildTarget] at hb
  split at hb
  case isTrue => exact absurd hb (by simp)
  case isFalse hguard =>
    obtain rfl : _ = t := Option.some.inj hb
    simp only [attachYearPeriod_value, attachYearPeriod_min, attachYearPeriod_max]
    refine applyComparison_someField hguard (fun hc => ?_)
    rw [findKpiMatches_vs2 hm hc]

/-- Witness for C5 at the concrete input "đạt 50%". -/
theorem C5_no_empty_target_witness :
    (({ targetType := .QUANTITATIVE, nameVi := "đạt", unit := some "%",
        targetValue := some 50, rawTextVi := "đạt 50%" } :
      ExtractedTarget)).targetValue.isSome = true ∨
    (({ targetType := .QUANTITATIVE, nameVi := "đạt", unit := some "%",
        targetValue := some 50, rawTextVi := "đạt 50%" } :
      ExtractedTarget)).targetMin.isSome = true ∨
    (({ targetType := .QUANTITATIVE, nameVi := "đạt", unit := some "%",
        targetValue := some 50, rawTextVi := "đạt 50%" } :
      ExtractedTarget)).targetMax.isSome = true := by
  refine C5_no_empty_target "đạt 50%" _ ?_
  rw [c50_clause_eval]
  exact List.mem_singleton.mpr rfl

/-- C10: every target the rule-based extractor emits has targetType
QUANTITATIVE; the rule-based path never produces QUALITATIVE or MILESTONE
targets. -/
theorem C10_always_quantitative (text : String) (t : ExtractedTarget)
    (ht : t ∈ extractTargetsRuleBased text) :
    t.targetType = TargetType.QUANTITATIVE := by
  obtain ⟨sen, _, clause, _, m, _, hb⟩ := rawTargets_mem (dedupGo_mem ht)
  simp only [buildTarget] at hb
  split at hb
  case isTrue => exact absurd hb (by simp)
  case isFalse =>
    obtain rfl : _ = t := Option.some.inj hb
    rw [attachYearPeriod_type, applyComparison_type]

/-- Witness for C10 at the concrete input "đạt 50%". -/
theorem C10_always_quantitative_witness :
    ({ targetType := .QUANTITATIVE, nameVi := "đạt", unit := some "%",
       targetValue := some 50, rawTextVi := "đạt 50%" } :
      ExtractedTarget).targetType = TargetType.QUANTITATIVE := by
  refine C10_always_quantitative "đạt 50%" _ ?_
  rw [c50_clause_eval]
  exact List.mem_singleton.mpr rfl

/-- C6: the clause "tăng trưởng bình quân đạt 6,5 - 7,0%/năm" yields exactly
one target, with targetMin 6.5, targetMax 7.0, targetValue 6.75 (the
midpoint) and unit "%/năm". -/
theorem C6_range_clause :
    (extractTargetsRuleBased "tăng trưởng bình quân đạt 6,5 - 7,0%/năm").length = 1 ∧
    ∀ t ∈ extractTargetsRuleBased "tăng trưởng bình quân đạt 6,5 - 7,0%/năm",
      t.targetMin = some (6.5 : ℚ) ∧ t.targetMax = some (7 : ℚ) ∧
        t.targetValue = some (6.75 : ℚ) ∧ t.unit = some "%/năm" := by
  rw [c6_clause_eval]
  refine ⟨rfl, ?_⟩
  intro t ht
  rw [List.mem_singleton] at ht
  subst ht
  refine ⟨?_, ?_, ?_, rfl⟩
  · show some ((digitsToNat ['6'] : ℚ) + fracValQ ['5']) = some (6.5 : ℚ)
    rw [show digitsToNat ['6'] = 6 from by decide, fracValQ,
      show digitsToNat ['5'] = 5 from by decide]
    norm_num
  · show some ((digitsToNat ['7'] : ℚ) + fracValQ ['0']) = some (7 : ℚ)
    rw [show digitsToNat ['7'] = 7 from by decide, fracValQ,
      show digitsToNat ['0'] = 0 from by decide]
    norm_num
  · show some ((((digitsToNat ['6'] : ℚ) + fracValQ ['5']) +
      ((digitsToNat ['7'] : ℚ) + fracValQ ['0'])) / 2) = some (6.75 : ℚ)
    rw [show digitsToNat ['6'] = 6 from by decide,
      show digitsToNat ['7'] = 7 from by decide, fracValQ, fracValQ,
      show digitsToNat ['5'] = 5 from by decide,
      show digitsToNat ['0'] = 0 from by decide]
    norm_num

/-- C7 counterexample: a clause containing the compound unit "triệu USD"
(and matching its pattern) is detected as the generic "USD", because the
generic `\bUSD\b` pattern precedes the compound ones in UNIT_PATTERNS. -/
theorem C7_counterexample :
    reTestCIB "triệu USD" "kim ngạch xuất khẩu đạt 500 triệu USD".data = true ∧
    detectUnit "kim ngạch xuất khẩu đạt 500 triệu USD".data = some "USD" := by
  constructor
  · decide
  · decide

/-- C7 amended: clause-level unit detection returns the first matching
pattern in the fixed UNIT_PATTERNS order.  That order places "%" and the
generic "USD" before the compound currency units, so a clause containing
"triệu USD" detects "USD"; the compound "nghìn tỷ đồng" is listed before its
generic suffixes and is detected whenever no earlier pattern matches. -/
theorem C7_unit_order_amended (clause : List Char)
    (h0 : reTestCIEndB "%/năm" clause = false)
    (h1 : reTestCI "%" clause = false)
    (h2 : reTestCIB "USD" clause = false)
    (h3 : reTestCIB "triệu USD" clause = false)
    (h4 : reTestCIB "tỷ USD" clause = false)
    (h5 : reTestCIB "nghìn tỷ đồng" clause = true) :
    detectUnit clause = some "nghìn tỷ đồng" := by
  unfold detectUnit UNIT_PATTERNS
  simp [List.findSome?_cons, h0, h1, h2, h3, h4, h5]

/-- Witness for the amended C7 at the concrete input "đạt 100 nghìn tỷ đồng". -/
theorem C7_unit_order_amended_witness :
    detectUnit "đạt 100 nghìn tỷ đồng".data = some "nghìn tỷ đồng" :=
  C7_unit_order_amended "đạt 100 nghìn tỷ đồng".data (by decide) (by decide)
    (by decide) (by decide) (by decide) (by decide)

/-- C9: with useLLM enabled, whenever the LLM call fails in any way (network
error, non-2xx, missing text block, malformed JSON, non-array) or no API key
resolves, extractTargets returns exactly the rule-based result; no error is
surfaced to the caller. -/
theorem C9_llm_failure_falls_back (contentVi : String)
    (options : Option ExtractTargetsOptions) (envApiKey : Option String)
    (call : LlmCallResult)
    (huse : (options.bind (fun o => o.useLLM)).getD false = true)
    (hfail : (∀ ts, call ≠ LlmCallResult.ok ts) ∨
      (options.bind (fun o => o.apiKey)).orElse (fun _ => envApiKey) = none) :
    extractTargets contentVi options envApiKey call =
      extractTargetsRuleBased contentVi := by
  simp only [extractTargets, huse, if_true]
  rcases hkey : (options.bind (fun o => o.apiKey)).orElse (fun _ => envApiKey)
    with _ | key
  · rfl
  · rcases hfail with hcall | hnone
    · cases call with
      | ok ts => exact absurd rfl (hcall ts)
      | networkError m => rfl
      | httpError st b => rfl
      | noTextContent => rfl
      | jsonParseError sn => rfl
      | notAnArray => rfl
    · rw [hnone] at hkey
      exact Option.noConfusion hkey

/-- Witness for C9: a network failure with useLLM set falls back to the
rule-based extraction. -/
theorem C9_llm_failure_falls_back_witness :
    extractTargets "đạt 50%" (some { useLLM := some true, apiKey := none })
      (some "key") (LlmCallResult.networkError "connection reset") =
    extractTargetsRuleBased "đạt 50%" :=
  C9_llm_failure_falls_back "đạt 50%" (some { useLLM := some true, apiKey := none })
    (some "key") (LlmCallResult.networkError "connection reset") rfl
    (Or.inl (fun ts h => LlmCallResult.noConfusion h))

/-- Witness for C2 at the concrete input "7.500". -/
theorem C2_intl_float_heuristic_witness : parseVietnameseNumber "7.500" = some 7500 := by
  have h := C2_intl_float_heuristic false ['7'] ['5', '0', '0']
    (by decide) (by decide) (by decide) (by decide)
  rw [show String.mk (signChars false ++ (['7'] ++ '.' :: ['5', '0', '0']))
      = "7.500" from rfl] at h
  rw [h]
  decide

/-! ## C8: appendix table merge -/

lemma buildRowsGo_numbered (columns : List String) (rows : List (List Char)) :
    ∀ (rn i : Nat) (r : ParsedAppendixRow),
      (buildRowsGo columns rows rn)[i]? = some r →
      r.rowNumber = rn + i ∧ r.sortOrder = rn + i := by
  induction rows with
  | nil =>
    intro rn i r hr
    simp [buildRowsGo] at hr
  | cons rh rest ih =>
    intro rn i r hr
    simp only [buildRowsGo] at hr
    by_cases hc : ((extractCells rh).isEmpty || (extractCells rh).all List.isEmpty) = true
    · rw [if_pos hc] at hr
      exact ih rn i r hr
    · rw [if_neg hc] at hr
      match i with
      | 0 =>
        simp only [List.getElem?_cons_zero, Option.some.injEq] at hr
        subst hr
        exact ⟨rfl, rfl⟩
      | i + 1 =>
        simp only [List.getElem?_cons_succ] at hr
        have hr2 := ih (rn + 1) i r hr
        omega

lemma rowsNumbered_nil : RowsNumbered [] := by
  intro i h
  simp at h

lemma rowsNumbered_buildRows (cols : List String) (rws : List (List Char)) :
    RowsNumbered (buildRowsGo cols rws 1) := by
  intro i h
  have hr := buildRowsGo_numbered cols rws 1 i ((buildRowsGo cols rws 1)[i])
    (List.getElem?_eq_getElem h)
  omega

lemma parseHtmlTable_rows_shape (t : List Char) :
    (parseHtmlTable t).rows = [] ∨
    ∃ cols rws, (parseHtmlTable t).rows = buildRowsGo cols rws 1 := by
  cases hrm : (execAll trAt t).map (fun pc => pc.2) with
  | nil =>
    left
    unfold parseHtmlTable
    rw [hrm]
  | cons first restRows =>
    right
    by_cases hh : (hasThTag first || !restRows.isEmpty) = true
    · refine ⟨List.mapIdx
        (fun i h => if h.isEmpty then "Column_" ++ toString (i + 1) else String.mk h)
        (extractCells first), restRows, ?_⟩
      unfold parseHtmlTable
      rw [hrm]
      dsimp only
      rw [if_pos hh]
    · refine ⟨List.mapIdx (fun i _ => "Column_" ++ toString (i + 1))
        (extractCells first), [first], ?_⟩
      unfold parseHtmlTable
      rw [hrm]
      dsimp only
      rw [if_neg hh]

lemma parseHtmlTable_numbered (t : List Char) : RowsNumbered (parseHtmlTable t).rows := by
  rcases parseHtmlTable_rows_shape t with h | ⟨c, r, h⟩
  · rw [h]; exact rowsNumbered_nil
  · rw [h]; exact rowsNumbered_buildRows c r

lemma rowsNumbered_append (r1 r2 : List ParsedAppendixRow)
    (h1 : RowsNumbered r1) (h2 : RowsNumbered r2) :
    RowsNumbered (r1 ++ r2.map (fun row =>
      { row with rowNumber := row.rowNumber + r1.length,
                 sortOrder := row.sortOrder + r1.length })) := by
  intro i h
  by_cases hi : i < r1.length
  · rw [List.getElem_append_left hi]
    exact h1 i hi
  · have hi' : r1.length ≤ i := le_of_not_lt hi
    have hj : i - r1.length < r2.length := by
      simp only [List.length_append, List.length_map] at h
      omega
    rw [List.getElem_append_right hi']
    simp only [List.getElem_map]
    have hr := h2 (i - r1.length) (by simpa using hj)
    refine ⟨?_, ?_⟩
    · show r2[i - r1.length].rowNumber + r1.length = i + 1
      rw [hr.1]; omega
    · show r2[i - r1.length].sortOrder + r1.length = i + 1
      rw [hr.2]; omega

lemma mergeSectionTables_pair (t1 t2 : List Char)
    (hne : (parseHtmlTable t1).columns.isEmpty = false) :
    mergeSectionTables [t1, t2] =
      ((parseHtmlTable t1).columns,
       (parseHtmlTable t1).rows ++ (parseHtmlTable t2).rows.map (fun row =>
         { row with rowNumber := row.rowNumber + (parseHtmlTable t1).rows.length,
                    sortOrder := row.sortOrder + (parseHtmlTable t1).rows.length })) := by
  unfold mergeSectionTables
  simp only [List.foldl_cons, List.foldl_nil, List.isEmpty_nil, if_true, hne,
    Bool.false_eq_true, if_false]

/-- C8: in `parseAppendicesFromHtml`, a document with exactly one appendix
header followed by two tables with identical non-empty column headers
produces a single appendix whose row count is the sum of the two tables'
data-row counts, with `rowNumber` renumbered contiguously from 1 across the
merge and equal to `sortOrder` on every row. -/
theorem C8_single_header_two_tables (html : String) (p q1 q2 : Nat)
    (hid : Option (List Char)) (t1 t2 : List Char)
    (hh : execAll phuLucHeaderAt html.data = [(p, hid)])
    (ht : execAll tableAt html.data = [(q1, t1), (q2, t2)])
    (hpq : p < q1) (hq12 : q1 < q2) (hlen : q2 < html.data.length)
    (hcols : (parseHtmlTable t1).columns = (parseHtmlTable t2).columns)
    (hne : (parseHtmlTable t1).columns ≠ []) :
    ∃ a, parseAppendicesFromHtml html = [a] ∧
      a.rows.length =
        (parseHtmlTable t1).rows.length + (parseHtmlTable t2).rows.length ∧
      RowsNumbered a.rows := by
  have hq1len : q1 < html.data.length := hq12.trans hlen
  have hne' : (parseHtmlTable t1).columns.isEmpty = false := by
    cases hcl : (parseHtmlTable t1).columns
    · exact absurd hcl hne
    · rfl
  have hpair := mergeSectionTables_pair t1 t2 hne'
  have hf : List.filter (fun t => decide (p < t.1 ∧ t.1 < html.data.length))
      [(q1, t1), (q2, t2)] = [(q1, t1), (q2, t2)] := by
    simp only [List.filter_cons, List.filter_nil, decide_eq_true_eq]
    rw [if_pos ⟨hpq, hq1len⟩, if_pos ⟨hpq.trans hq12, hlen⟩]
  have hr1 : List.range 1 = [0] := rfl
  have h00 : ∀ (x y : Nat), (if (0 : Nat) < 0 then x else y) = y :=
    fun x y => if_neg (lt_irrefl 0)
  unfold parseAppendicesFromHtml
  simp only [hh, ht, List.isEmpty_cons, Bool.false_eq_true, if_false,
    List.length_singleton, hr1, List.map_cons, List.map_nil,
    List.getD_cons_zero, Nat.sub_self, lt_self_iff_false]
  refine ⟨_, rfl, ?_, ?_⟩
  · beta_reduce
    dsimp only
    simp only [hf, List.map_cons, List.map_nil]
    rw [hpair]
    simp
  · beta_reduce
    dsimp only
    simp only [hf, List.map_cons, List.map_nil]
    rw [hpair]
    exact rowsNumbered_append _ _ (parseHtmlTable_numbered t1) (parseHtmlTable_numbered t2)

/-- Witness for C8: a concrete one-header, two-table document. -/
theorem C8_single_header_two_tables_witness :
    (execAll phuLucHeaderAt c8Html.data = [(3, some ['I'])] ∧
     execAll tableAt c8Html.data = [(26, c8t1), (128, c8t2)] ∧
     (3 : Nat) < 26 ∧ (26 : Nat) < 128 ∧ 128 < c8Html.data.length ∧
     (parseHtmlTable c8t1).columns = (parseHtmlTable c8t2).columns ∧
     (parseHtmlTable c8t1).columns ≠ []) ∧
    (∃ a, parseAppendicesFromHtml c8Html = [a] ∧
      a.rows.length =
        (parseHtmlTable c8t1).rows.length + (parseHtmlTable c8t2).rows.length ∧
      RowsNumbered a.rows) :=
  ⟨⟨by decide, by decide, by decide, by decide, by decide, by decide, by decide⟩,
   C8_single_header_two_tables c8Html 3 26 128 (some ['I']) c8t1 c8t2
     (by decide) (by decide) (by decide) (by decide) (by decide)
     (by decide) (by decide)⟩

end VietnamMe
